import Mathlib

/-!
Shallow embedding of the per-frame simulation core of the Quantum-mining
repository: the entity data model (types file), the numeric constants
(constants file), the vector utilities (utils/physics), and the per-tick
`update` pipeline of the game canvas component (ship control and physics,
mining-laser targeting, tractor beam, mine arm/pucker/detonation sequence,
asteroid physics and collision resolution, sector-completion check, docking
and game-over transitions), together with the fragmentation cascade
(`breakAsteroid`) and the sector-cleared callback of the application shell.

Numbers are modelled as real numbers (the source uses JS floats); frame
counters, cargo and ammo, which only ever hold integers in the source, are
modelled as integers.  `Math.random()` is modelled as an ambient stream of
real numbers threaded through the state (`Rng`); every value drawn from it
is universally quantified in the theorems.  Purely cosmetic effects are
omitted: particles, screen shake, camera, canvas rendering, entity id
strings and colors (colors are a function of the tier), and the continuous
audio loop toggles.  One-shot audio cues and the sector-cleared callback are
modelled as an explicit event list returned by the tick, since the
specification constrains them.  The application shell (App file) handles the
sector-cleared callback by switching the phase to SECTOR_CLEARED; that phase
value is taken from the App file (the types file's enum omits it).
-/

noncomputable section

namespace Quantum

/-! ## Constants (constants file) -/

def FRICTION : ℝ := 0.98
def SHIP_ACCEL : ℝ := 0.15
def SHIP_ROTATION_SPEED : ℝ := 0.08
def MAX_SPEED : ℝ := 8
def LASER_RANGE : ℝ := 250
def STATION_RADIUS : ℝ := 150
def STATION_SHIELD_RADIUS : ℝ := 220
def MINE_PUCKER_DURATION : ℤ := 60
def MINE_BLAST_RADIUS : ℝ := 300
def MINE_PUCKER_FORCE : ℝ := 0.5
def MINE_BLAST_FORCE : ℝ := 15
def SHIP_RADIUS : ℝ := 15
def TITAN_RADIUS : ℝ := 60
def CHUNK_RADIUS : ℝ := 25
def ORE_RADIUS : ℝ := 5
def VOLATILE_RADIUS : ℝ := 50

/-! ## Geometry (utils/physics file) -/

/-- A 2D point (the Point/Vector interfaces of the types file). -/
@[ext]
structure Point where
  x : ℝ
  y : ℝ

/-- Euclidean distance, as in the source: sqrt of the sum of squared
coordinate differences. -/
def distance (p1 p2 : Point) : ℝ :=
  Real.sqrt ((p2.x - p1.x) ^ 2 + (p2.y - p1.y) ^ 2)

/-- Circle-overlap test between two entities given by center and radius
(`checkCollision` of utils/physics): distance strictly below the sum of the
radii. -/
def checkCollision (p1 : Point) (r1 : ℝ) (p2 : Point) (r2 : ℝ) : Prop :=
  distance p1 p2 < r1 + r2

instance (p1 : Point) (r1 : ℝ) (p2 : Point) (r2 : ℝ) :
    Decidable (checkCollision p1 r1 p2 r2) :=
  inferInstanceAs (Decidable (distance p1 p2 < r1 + r2))

/-- JS `Math.atan2 y x`, embedded as the argument of the complex number
`x + y*i`; both have range (-pi, pi] and agree at the origin (both 0). -/
def atan2 (y x : ℝ) : ℝ :=
  Complex.arg ⟨x, y⟩

/-! ## Data model (types file) -/

/-- Asteroid tiers (the AsteroidTier enum). -/
inductive Tier where
  | TITAN
  | CHUNK
  | ORE
  | VOLATILE
deriving DecidableEq

/-- An asteroid: position, velocity, radius, render rotation, tier, hit
points and silhouette offsets.  The id string and color are omitted (the
color is determined by the tier and only read by the renderer). -/
@[ext]
structure Asteroid where
  x : ℝ
  y : ℝ
  vx : ℝ
  vy : ℝ
  radius : ℝ
  angle : ℝ
  rotationSpeed : ℝ
  tier : Tier
  hp : ℝ
  shape : List ℝ

/-- Mine states.  The source's type also lists DEAD but never assigns it. -/
inductive MineState where
  | ARMED
  | PUCKER
  | DETONATING
deriving DecidableEq

/-- A mine: fixed position, countdown timer, state. -/
@[ext]
structure Mine where
  x : ℝ
  y : ℝ
  timer : ℤ
  state : MineState

/-- The ship.  Credits and the per-frame control booleans are omitted
(credits are only touched by the shop actions, the booleans only drive the
renderer and the audio loops). -/
@[ext]
structure Ship where
  x : ℝ
  y : ℝ
  vx : ℝ
  vy : ℝ
  angle : ℝ
  radius : ℝ
  hull : ℝ
  maxHull : ℝ
  shield : ℝ
  maxShield : ℝ
  cargo : ℤ
  maxCargo : ℤ
  ammo : ℤ
  invulnerableTimer : ℤ

/-- Upgrade levels (the Upgrades interface). -/
@[ext]
structure Upgrades where
  engineLevel : ℕ
  handlingLevel : ℕ
  hullLevel : ℕ
  cargoLevel : ℕ
  laserLevel : ℕ
  shieldLevel : ℕ

/-- Game phases.  The types file's enum lists MENU, PLAYING, DOCKED and
GAME_OVER; the App file additionally switches to a SECTOR_CLEARED phase from
the sector-cleared callback, so it is included here. -/
inductive GamePhase where
  | MENU
  | PLAYING
  | DOCKED
  | SECTOR_CLEARED
  | GAME_OVER
deriving DecidableEq

/-- One-shot externally visible cues emitted during a tick: the audio cues
fired by the simulation (pickup, small/large explosion, mine pucker, the
docking UI sound) and the sector-cleared callback with its statistics
payload. -/
inductive Event where
  | pickup
  | explosionSmall
  | explosionLarge
  | minePucker
  | uiBuy
  | sectorCleared (percent : ℤ) (ore : ℤ)
deriving DecidableEq

/-- The ambient `Math.random()` stream: an arbitrary sequence of reals and a
cursor.  Each modelled draw consumes one element.  Draws that feed only the
omitted cosmetic state (particles, entity ids) are not modelled. -/
@[ext]
structure Rng where
  seq : ℕ → ℝ
  pos : ℕ

/-- Draw one value from the stream. -/
def Rng.next (g : Rng) : ℝ × Rng :=
  (g.seq g.pos, { g with pos := g.pos + 1 })

/-- randomRange of utils/physics: `Math.random() * (max - min) + min`. -/
def randomRange (lo hi : ℝ) (g : Rng) : ℝ × Rng :=
  let r := g.next
  (r.1 * (hi - lo) + lo, r.2)

/-- generatePolygonOffsets of utils/physics: vertexCount draws in
[1 - variance, 1 + variance]. -/
def generatePolygonOffsets : ℕ → ℝ → Rng → List ℝ × Rng
  | 0, _, g => ([], g)
  | n + 1, variance, g =>
    let o := randomRange (1 - variance) (1 + variance) g
    let rest := generatePolygonOffsets n variance o.2
    (o.1 :: rest.1, rest.2)

/-! ## Spawner (spawnAsteroid of the canvas component) -/

/-- Tier radius as assigned by spawnAsteroid. -/
def tierRadius : Tier → ℝ
  | Tier.TITAN => TITAN_RADIUS
  | Tier.VOLATILE => VOLATILE_RADIUS
  | Tier.CHUNK => CHUNK_RADIUS
  | Tier.ORE => ORE_RADIUS

/-- Tier hit points as assigned by spawnAsteroid. -/
def tierHp : Tier → ℝ
  | Tier.TITAN => 1000
  | Tier.VOLATILE => 800
  | Tier.CHUNK => 50
  | Tier.ORE => 1

/-- Tier polygon vertex count as assigned by spawnAsteroid. -/
def tierSides : Tier → ℕ
  | Tier.TITAN => 12
  | Tier.VOLATILE => 10
  | Tier.CHUNK => 8
  | Tier.ORE => 8

/-- Tier silhouette variance as assigned by spawnAsteroid. -/
def tierVariance : Tier → ℝ
  | Tier.VOLATILE => 0.4
  | _ => 0.2

/-- spawnAsteroid: create an asteroid of the given tier at the given
position and velocity, with tier-fixed radius and hit points and
rng-driven rotation and silhouette. -/
def spawnAsteroid (tier : Tier) (x y vx vy : ℝ) (g : Rng) : Asteroid × Rng :=
  let r := g.next
  let rot := randomRange (-0.02) 0.02 r.2
  let shape := generatePolygonOffsets (tierSides tier) (tierVariance tier) rot.2
  ({ x := x, y := y, vx := vx, vy := vy,
     radius := tierRadius tier,
     angle := r.1 * (2 * Real.pi),
     rotationSpeed := rot.1,
     tier := tier,
     hp := tierHp tier,
     shape := shape.1 }, shape.2)

/-- The per-fragment spawning loop shared by the three branches of
breakAsteroid: each fragment draws an angle in [0, 2pi) and a speed in
[lo, hi], is offset from the parent by `off` along the angle, and inherits
0.3 of the impact velocity plus the angular component. -/
def spawnFragments (childTier : Tier) (ax ay ivx ivy off lo hi : ℝ) :
    ℕ → Rng → List Asteroid × Rng
  | 0, g => ([], g)
  | n + 1, g =>
    let angle := randomRange 0 (Real.pi * 2) g
    let speed := randomRange lo hi angle.2
    let child := spawnAsteroid childTier
      (ax + Real.cos angle.1 * off) (ay + Real.sin angle.1 * off)
      (ivx * 0.3 + Real.cos angle.1 * speed.1) (ivy * 0.3 + Real.sin angle.1 * speed.1) speed.2
    let rest := spawnFragments childTier ax ay ivx ivy off lo hi n child.2
    (child.1 :: rest.1, rest.2)

/-- breakAsteroid: the fragmentation cascade on destruction.  VOLATILE
spawns 8 fast CHUNKs with a large-explosion cue, TITAN spawns 5 CHUNKs with
a large-explosion cue, CHUNK spawns 10 OREs with a small-explosion cue, ORE
spawns nothing and emits no cue.  Returns the spawned children and the cues;
the visual dust particles and screen shake are omitted. -/
def breakAsteroid (ast : Asteroid) (impactVx impactVy : ℝ) (g : Rng) :
    List Asteroid × Rng × List Event :=
  if ast.tier = Tier.VOLATILE then
    let children :=
      spawnFragments Tier.CHUNK ast.x ast.y impactVx impactVy 10 8 14 8 g
    (children.1, children.2, [Event.explosionLarge])
  else if ast.tier = Tier.TITAN then
    let children :=
      spawnFragments Tier.CHUNK ast.x ast.y impactVx impactVy 10 1 4 5 g
    (children.1, children.2, [Event.explosionLarge])
  else if ast.tier = Tier.CHUNK then
    let children :=
      spawnFragments Tier.ORE ast.x ast.y impactVx impactVy 5 2 5 10 g
    (children.1, children.2, [Event.explosionSmall])
  else
    ([], g, [])

/-! ## Per-tick input snapshot

The held movement keys and pointer state read once per tick.  aimDX/aimDY
are the pointer offsets from the screen center (the DOM event capture that
produces them is out of scope); the source derives the aim angle with
`Math.atan2(dy, dx)`. -/

structure Input where
  thrustKey : Bool
  reverseKey : Bool
  brakeKey : Bool
  leftKey : Bool
  rightKey : Bool
  mouseDown : Bool
  rightDown : Bool
  aimDX : ℝ
  aimDY : ℝ

/-- Thrust acceleration: base plus engine bonus. -/
def shipAccelFor (u : Upgrades) : ℝ := SHIP_ACCEL + u.engineLevel * 0.02

/-- Speed cap: base plus engine bonus. -/
def maxSpeedFor (u : Upgrades) : ℝ := MAX_SPEED + u.engineLevel * 0.5

/-- Rotation rate: base plus handling bonus. -/
def rotSpeedFor (u : Upgrades) : ℝ := SHIP_ROTATION_SPEED + u.handlingLevel * 0.01

/-- Laser damage per frame: base plus laser bonus. -/
def laserPowerFor (u : Upgrades) : ℝ := 1 + u.laserLevel * 0.5

/-! ## 1. Ship control and physics step -/

/-- The speed-capping step: if the speed exceeds the cap, rescale the
velocity components by cap/speed. -/
def capSpeed (u : Upgrades) (s : Ship) : Ship :=
  let velocity := Real.sqrt (s.vx * s.vx + s.vy * s.vy)
  let maxSpeed := maxSpeedFor u
  if velocity > maxSpeed then
    { s with vx := s.vx / velocity * maxSpeed, vy := s.vy / velocity * maxSpeed }
  else s

/-- Section 1 of update: thrust, reverse thrust, space brake with zero snap,
rotation, speed cap, friction, and position integration, in source order.
The thruster particles and audio loop toggles are omitted. -/
def controlStep (inp : Input) (u : Upgrades) (s0 : Ship) : Ship :=
  let s1 := if inp.thrustKey then
      { s0 with vx := s0.vx + Real.cos s0.angle * shipAccelFor u,
                vy := s0.vy + Real.sin s0.angle * shipAccelFor u } else s0
  let s2 := if inp.reverseKey then
      { s1 with vx := s1.vx - Real.cos s1.angle * (shipAccelFor u * 0.5),
                vy := s1.vy - Real.sin s1.angle * (shipAccelFor u * 0.5) } else s1
  let s3 := if inp.brakeKey then
      let bvx := s2.vx * 0.9
      let bvy := s2.vy * 0.9
      { s2 with vx := if |bvx| < 0.01 then 0 else bvx,
                vy := if |bvy| < 0.01 then 0 else bvy } else s2
  let s4 := if inp.leftKey then { s3 with angle := s3.angle - rotSpeedFor u } else s3
  let s5 := if inp.rightKey then { s4 with angle := s4.angle + rotSpeedFor u } else s4
  let s6 := capSpeed u s5
  let s7 := { s6 with vx := s6.vx * FRICTION, vy := s6.vy * FRICTION }
  { s7 with x := s7.x + s7.vx, y := s7.y + s7.vy }

/-! ## 3. Mining laser -/

/-- The source normalizes the aim/bearing difference into [-pi, pi] with two
while loops; both inputs come from atan2 and lie in (-pi, pi], so the
difference lies in (-2pi, 2pi) and each loop body runs at most once, which
this conditional reproduces. -/
def wrapAngle (d : ℝ) : ℝ :=
  if d > Real.pi then d - Real.pi * 2 else if d < -Real.pi then d + Real.pi * 2 else d

/-- The target-selection fold of section 3: walk the asteroid list keeping
the index of the closest asteroid seen so far (initial best distance
LASER_RANGE, initial target none), skipping TITAN/VOLATILE/ORE tiers,
asteroids at distance at least LASER_RANGE + radius, and asteroids at
bearing at least 0.2 rad off the aim. -/
def findTargetAux (sx sy aimAngle : ℝ) :
    List Asteroid → ℕ → Option ℕ × ℝ → Option ℕ × ℝ
  | [], _, acc => acc
  | a :: rest, k, acc =>
    let acc2 :=
      if a.tier = Tier.TITAN ∨ a.tier = Tier.VOLATILE ∨ a.tier = Tier.ORE then acc
      else
        let dToAst := distance ⟨sx, sy⟩ ⟨a.x, a.y⟩
        if dToAst < LASER_RANGE + a.radius then
          let angleToAst := atan2 (a.y - sy) (a.x - sx)
          let angleDiff := wrapAngle (angleToAst - aimAngle)
          if |angleDiff| < 0.2 then
            if dToAst < acc.2 then (some k, dToAst) else acc
          else acc
        else acc
    findTargetAux sx sy aimAngle rest (k + 1) acc2

/-- Entry point of the target-selection fold. -/
def findTarget (sx sy aimAngle : ℝ) (l : List Asteroid) : Option ℕ × ℝ :=
  findTargetAux sx sy aimAngle l 0 (none, LASER_RANGE)

/-- Section 3 of update: when the trigger is held, aim from the ship along
the pointer direction, pick at most one target, subtract the laser power
from its hit points, fragment it if that kills it, and purge dead asteroids.
The rendered beam length and impact particles are omitted. -/
def laserStep (inp : Input) (u : Upgrades) (s : Ship) (l : List Asteroid) (g : Rng) :
    List Asteroid × Rng × List Event :=
  if inp.mouseDown then
    let aimAngle := atan2 inp.aimDY inp.aimDX
    match findTarget s.x s.y aimAngle l with
    | (some k, _) =>
      match l[k]? with
      | some a =>
        let damaged := { a with hp := a.hp - laserPowerFor u }
        let l2 := l.set k damaged
        if a.hp > 0 ∧ damaged.hp ≤ 0 then
          let br := breakAsteroid damaged 0 0 g
          ((l2 ++ br.1).filter (fun b => decide (b.hp > 0)), br.2.1, br.2.2)
        else
          (l2.filter (fun b => decide (b.hp > 0)), g, [])
      | none => (l.filter (fun b => decide (b.hp > 0)), g, [])
    | (none, _) => (l.filter (fun b => decide (b.hp > 0)), g, [])
  else (l, g, [])

/-! ## 4. Tractor beam -/

/-- Inward pull plus jitter on one ORE asteroid within tractor range. -/
def tractorOne (s : Ship) (a : Asteroid) (g : Rng) : Asteroid × Rng :=
  if a.tier = Tier.ORE then
    if distance ⟨s.x, s.y⟩ ⟨a.x, a.y⟩ < 500 then
      let angle := atan2 (s.y - a.y) (s.x - a.x)
      let jx := randomRange (-0.2) 0.2 g
      let jy := randomRange (-0.2) 0.2 jx.2
      ({ a with vx := a.vx + Real.cos angle * 0.5 + jx.1,
                vy := a.vy + Real.sin angle * 0.5 + jy.1 }, jy.2)
    else (a, g)
  else (a, g)

/-- The tractor pass over the asteroid list. -/
def tractorList (s : Ship) : List Asteroid → Rng → List Asteroid × Rng
  | [], g => ([], g)
  | a :: rest, g =>
    let a1 := tractorOne s a g
    let l1 := tractorList s rest a1.2
    (a1.1 :: l1.1, l1.2)

/-- Section 4 of update: applied only while the secondary button is held. -/
def tractorStep (inp : Input) (s : Ship) (l : List Asteroid) (g : Rng) :
    List Asteroid × Rng :=
  if inp.rightDown then tractorList s l g else (l, g)

/-! ## 5. Mines -/

/-- Pucker-phase inward pull on one asteroid within 1.5 blast radii. -/
def puckerPullAst (m : Mine) (a : Asteroid) : Asteroid :=
  if distance ⟨m.x, m.y⟩ ⟨a.x, a.y⟩ < MINE_BLAST_RADIUS * 1.5 then
    let angle := atan2 (m.y - a.y) (m.x - a.x)
    { a with vx := a.vx + Real.cos angle * MINE_PUCKER_FORCE,
             vy := a.vy + Real.sin angle * MINE_PUCKER_FORCE }
  else a

/-- Pucker-phase inward pull on the ship, at half force. -/
def puckerPullShip (m : Mine) (s : Ship) : Ship :=
  if distance ⟨m.x, m.y⟩ ⟨s.x, s.y⟩ < MINE_BLAST_RADIUS * 1.5 then
    let angle := atan2 (m.y - s.y) (m.x - s.x)
    { s with vx := s.vx + Real.cos angle * (MINE_PUCKER_FORCE * 0.5),
             vy := s.vy + Real.sin angle * (MINE_PUCKER_FORCE * 0.5) }
  else s

/-- Blast effect of a detonating mine on one asteroid: within the blast
radius, an outward impulse along the bearing from the mine scaled by
(1 - d/blastRadius) times the blast force, then TITAN/VOLATILE hit points
zeroed, other non-ORE tiers lose 100 hit points, ORE left undamaged. -/
def blastAst (m : Mine) (a : Asteroid) : Asteroid :=
  let d := distance ⟨m.x, m.y⟩ ⟨a.x, a.y⟩
  if d < MINE_BLAST_RADIUS then
    let angle := atan2 (a.y - m.y) (a.x - m.x)
    let force := MINE_BLAST_FORCE * (1 - d / MINE_BLAST_RADIUS)
    let a1 := { a with vx := a.vx + Real.cos angle * force,
                       vy := a.vy + Real.sin angle * force }
    if a1.tier = Tier.TITAN ∨ a1.tier = Tier.VOLATILE then { a1 with hp := 0 }
    else if a1.tier ≠ Tier.ORE then { a1 with hp := a1.hp - 100 }
    else a1
  else a

/-- The detonation pass over the asteroid list: each asteroid receives the
blast effect once; a blast that brings a live asteroid's hit points to or
below zero triggers its fragmentation exactly once, with the blast-outward
velocity as impact velocity.  The source pushes fragments onto the array
during the forEach, and forEach does not visit elements appended after it
starts, so the pass returns the processed originals and the fragments
separately; the caller appends them. -/
def detonateList (m : Mine) :
    List Asteroid → Rng → List Asteroid × List Asteroid × Rng × List Event
  | [], g => ([], [], g, [])
  | a :: rest, g =>
    let d := distance ⟨m.x, m.y⟩ ⟨a.x, a.y⟩
    let a1 := blastAst m a
    let fr :=
      if d < MINE_BLAST_RADIUS ∧ a.hp > 0 ∧ a1.hp ≤ 0 then
        let angle := atan2 (a.y - m.y) (a.x - m.x)
        let force := MINE_BLAST_FORCE * (1 - d / MINE_BLAST_RADIUS)
        breakAsteroid a1 (Real.cos angle * force) (Real.sin angle * force) g
      else ([], g, [])
    let t := detonateList m rest fr.2.1
    (a1 :: t.1, fr.1 ++ t.2.1, t.2.2.1, fr.2.2 ++ t.2.2.2)

/-- Blast effect on the ship: an outward impulse at 1.5 times the scaled
blast force; if the invulnerability timer is not positive, a full shield
absorb (shield to 0, 60-frame window) or scaled hull damage (30-frame
window). -/
def blastShip (m : Mine) (s : Ship) : Ship :=
  let dShip := distance ⟨m.x, m.y⟩ ⟨s.x, s.y⟩
  if dShip < MINE_BLAST_RADIUS then
    let angle := atan2 (s.y - m.y) (s.x - m.x)
    let force := MINE_BLAST_FORCE * 1.5 * (1 - dShip / MINE_BLAST_RADIUS)
    let s1 := { s with vx := s.vx + Real.cos angle * force,
                       vy := s.vy + Real.sin angle * force }
    if s1.invulnerableTimer ≤ 0 then
      if s1.shield > 0 then { s1 with shield := 0, invulnerableTimer := 60 }
      else { s1 with hull := s1.hull - 50 * (1 - dShip / MINE_BLAST_RADIUS),
                     invulnerableTimer := 30 }
    else s1
  else s

/-- One mine's slice of section 5: decrement the countdown, fire the pucker
cue on the tick the timer hits the pucker window, then branch: strictly
inside the window, enter PUCKER and pull asteroids and ship inward; at or
below zero, enter DETONATING, emit the large-explosion cue, blast asteroids
(with fragmentation) and the ship.  Suction and explosion particles and the
screen shake are omitted. -/
def stepMine (m0 : Mine) (s : Ship) (l : List Asteroid) (g : Rng) :
    Mine × Ship × List Asteroid × Rng × List Event :=
  let m := { m0 with timer := m0.timer - 1 }
  let cue := if m.timer = MINE_PUCKER_DURATION then [Event.minePucker] else []
  if (0 : ℤ) < m.timer ∧ m.timer < MINE_PUCKER_DURATION then
    let m1 := { m with state := MineState.PUCKER }
    let l1 := l.map (puckerPullAst m1)
    let s1 := puckerPullShip m1 s
    (m1, s1, l1, g, cue)
  else if m.timer ≤ (0 : ℤ) then
    let m1 := { m with state := MineState.DETONATING }
    let det := detonateList m1 l g
    let s1 := blastShip m1 s
    (m1, s1, det.1 ++ det.2.1, det.2.2.1, cue ++ [Event.explosionLarge] ++ det.2.2.2)
  else (m, s, l, g, cue)

/-- Section 5 of update: the forEach over the mine list, threading the ship
and asteroid array through each mine in order. -/
def minesStepList :
    List Mine → Ship → List Asteroid → Rng →
      List Mine × Ship × List Asteroid × Rng × List Event
  | [], s, l, g => ([], s, l, g, [])
  | m :: rest, s, l, g =>
    let r1 := stepMine m s l g
    let r2 := minesStepList rest r1.2.1 r1.2.2.1 r1.2.2.2.1
    (r1.1 :: r2.1, r2.2.1, r2.2.2.1, r2.2.2.2.1, r1.2.2.2.2 ++ r2.2.2.2.2)

/-! ## 6. Asteroid physics and collision resolution -/

/-- Station force-field bounce, position integration, spin, and velocity
damping for one asteroid, in source order.  The shield-hit particles are
omitted. -/
def moveAst (a0 : Asteroid) : Asteroid :=
  let distToStation := distance ⟨0, 0⟩ ⟨a0.x, a0.y⟩
  let shieldDist := STATION_SHIELD_RADIUS + a0.radius
  let a1 :=
    if distToStation < shieldDist then
      let angle := atan2 a0.y a0.x
      let overlap := shieldDist - distToStation
      let am := { a0 with x := a0.x + Real.cos angle * overlap,
                          y := a0.y + Real.sin angle * overlap }
      let nx := Real.cos angle
      let ny := Real.sin angle
      let dot := am.vx * nx + am.vy * ny
      if dot < 0 then
        { am with vx := (am.vx - 2 * dot * nx) * 0.5,
                  vy := (am.vy - 2 * dot * ny) * 0.5 }
      else am
    else a0
  let a2 := { a1 with x := a1.x + a1.vx, y := a1.y + a1.vy,
                      angle := a1.angle + a1.rotationSpeed }
  { a2 with vx := a2.vx * 0.99, vy := a2.vy * 0.99 }

/-- Collision hull damage by tier: 20 base, 100 for TITAN, 150 for
VOLATILE. -/
def tierDamage : Tier → ℝ
  | Tier.TITAN => 100
  | Tier.VOLATILE => 150
  | _ => 20

/-- Ship/asteroid collision resolution for one asteroid: ORE is collected
when cargo has headroom (cargo up, ore counter up, hit points zeroed, pickup
cue); otherwise, with the invulnerability timer not positive, damage applies
when the relative speed exceeds 2 or the tier is VOLATILE: a full shield
absorb or tier-scaled hull damage, a 60-frame invulnerability window, a hard
radial bounce, and a small-explosion cue.  Screen shake is omitted. -/
def shipCollide (s : Ship) (a : Asteroid) (ore : ℤ) : Ship × Asteroid × ℤ × List Event :=
  if checkCollision ⟨s.x, s.y⟩ s.radius ⟨a.x, a.y⟩ a.radius then
    if a.tier = Tier.ORE then
      if s.cargo < s.maxCargo then
        ({ s with cargo := s.cargo + 1 }, { a with hp := 0 }, ore + 1, [Event.pickup])
      else (s, a, ore, [])
    else
      if s.invulnerableTimer ≤ 0 then
        let vRel := Real.sqrt ((s.vx - a.vx) ^ 2 + (s.vy - a.vy) ^ 2)
        if vRel > 2 ∨ a.tier = Tier.VOLATILE then
          let s1 :=
            if s.shield > 0 then { s with shield := 0 }
            else { s with hull := s.hull - tierDamage a.tier }
          let angle := atan2 (s1.y - a.y) (s1.x - a.x)
          ({ s1 with invulnerableTimer := 60,
                     vx := s1.vx + Real.cos angle * 8,
                     vy := s1.vy + Real.sin angle * 8 }, a, ore, [Event.explosionSmall])
        else (s, a, ore, [])
      else (s, a, ore, [])
  else (s, a, ore, [])

/-- Section 6 of update: the forEach over the asteroid list, moving each
asteroid, counting surviving TITAN/VOLATILE, and resolving its collision
with the ship, threading the ship and counters through in order. -/
def asteroidsStep :
    List Asteroid → Ship → ℕ → ℤ → List Asteroid × Ship × ℕ × ℤ × List Event
  | [], s, titans, ore => ([], s, titans, ore, [])
  | a :: rest, s, titans, ore =>
    let a1 := moveAst a
    let titans1 :=
      if a1.tier = Tier.TITAN ∨ a1.tier = Tier.VOLATILE then titans + 1 else titans
    let c := shipCollide s a1 ore
    let r := asteroidsStep rest c.1 titans1 c.2.2.1
    (c.2.1 :: r.1, r.2.1, r.2.2.1, r.2.2.2.1, c.2.2.2 ++ r.2.2.2.2)

/-! ## World state and the remaining transitions -/

/-- The per-tick simulation state: the phase, entity collections, sector
bookkeeping refs, the upgrade table, and the random stream. -/
@[ext]
structure World where
  phase : GamePhase
  ship : Ship
  upgrades : Upgrades
  asteroids : List Asteroid
  mines : List Mine
  sector : ℕ
  prevSector : ℕ
  levelInitialAsteroids : ℕ
  sectorOreCollected : ℤ
  rng : Rng

/-- The percent-destroyed payload of the sector-cleared callback:
floor((destroyed / initial) * 100). -/
def sectorPercent (initial titansLeft : ℕ) : ℤ :=
  ⌊(((initial : ℝ) - titansLeft) / initial) * 100⌋

/-- Section 6b of update: when the initial tracked count is positive and the
surviving TITAN/VOLATILE count is at most 10 percent of it, and the sector
index has not already advanced, invoke the sector-cleared callback with the
percent-destroyed and ore-collected statistics.  The App shell's callback
switches the phase to SECTOR_CLEARED.  (The source also re-checks that the
phase is PLAYING, which always holds inside a tick.) -/
def sectorCheck (w : World) (titansLeft : ℕ) : World × List Event :=
  if 0 < w.levelInitialAsteroids ∧
      (titansLeft : ℝ) ≤ w.levelInitialAsteroids * 0.1 then
    if w.sector = w.prevSector then
      ({ w with phase := GamePhase.SECTOR_CLEARED },
       [Event.sectorCleared (sectorPercent w.levelInitialAsteroids titansLeft)
          w.sectorOreCollected])
    else (w, [])
  else (w, [])

/-- Section 7 of update: docking when the ship is inside the station radius
with both velocity components below 1 in magnitude. -/
def dockCheck (w : World) : World × List Event :=
  if distance ⟨0, 0⟩ ⟨w.ship.x, w.ship.y⟩ < STATION_RADIUS + SHIP_RADIUS ∧
      |w.ship.vx| < 1 ∧ |w.ship.vy| < 1 then
    ({ w with phase := GamePhase.DOCKED }, [Event.uiBuy])
  else (w, [])

/-- Tail of update: decrement the invulnerability timer when positive, then
transition to GAME_OVER when the hull is at or below zero. -/
def endStep (w : World) : World × List Event :=
  let s := w.ship
  let s1 := if s.invulnerableTimer > 0 then
      { s with invulnerableTimer := s.invulnerableTimer - 1 } else s
  if s1.hull ≤ 0 then
    ({ w with ship := s1, phase := GamePhase.GAME_OVER }, [Event.explosionLarge])
  else ({ w with ship := s1 }, [])

/-- One completed simulation tick (the update callback of the canvas
component): a no-op outside PLAYING, otherwise the stages in source order.
Returns the new world and the one-shot cues and callbacks fired during the
tick, in order. -/
def update (inp : Input) (w : World) : World × List Event :=
  if w.phase ≠ GamePhase.PLAYING then (w, [])
  else
    let s1 := controlStep inp w.upgrades w.ship
    let L := laserStep inp w.upgrades s1 w.asteroids w.rng
    let T := tractorStep inp s1 L.1 L.2.1
    let M := minesStepList w.mines s1 T.1 T.2
    let mines1 := M.1.filter (fun m => decide (m.state ≠ MineState.DETONATING))
    let l4 := M.2.2.1.filter (fun a => decide (a.hp > 0))
    let A := asteroidsStep l4 M.2.1 0 w.sectorOreCollected
    let w1 := { w with ship := A.2.1, asteroids := A.1, mines := mines1,
                       rng := M.2.2.2.1, sectorOreCollected := A.2.2.2.1 }
    let S := sectorCheck w1 A.2.2.1
    let D := dockCheck S.1
    let E := endStep D.1
    (E.1, L.2.2 ++ M.2.2.2.2 ++ A.2.2.2.2 ++ S.2 ++ D.2 ++ E.2)

/-- A run of consecutive ticks, collecting every emitted event. -/
def run : List Input → World → World × List Event
  | [], w => (w, [])
  | i :: rest, w =>
    let u1 := update i w
    let r := run rest u1.1
    (r.1, u1.2 ++ r.2)

/-! ## Generic evaluation lemmas -/

theorem distance_lt_iff {p q : Point} {r : ℝ} (hr : 0 < r) :
    distance p q < r ↔ (q.x - p.x) ^ 2 + (q.y - p.y) ^ 2 < r ^ 2 := by
  unfold distance
  exact Real.sqrt_lt' hr

theorem distance_eq {p q : Point} {b : ℝ} (h : 0 ≤ b)
    (hb : (q.x - p.x) ^ 2 + (q.y - p.y) ^ 2 = b ^ 2) : distance p q = b := by
  unfold distance
  rw [hb, Real.sqrt_sq h]

theorem spawnFragments_length (t : Tier) (ax ay ivx ivy off lo hi : ℝ)
    (n : ℕ) (g : Rng) :
    (spawnFragments t ax ay ivx ivy off lo hi n g).1.length = n := by
  induction n generalizing g with
  | zero => rfl
  | succ n ih => simp [spawnFragments, ih]

theorem spawnFragments_tier (t : Tier) (ax ay ivx ivy off lo hi : ℝ)
    (n : ℕ) (g : Rng) :
    ∀ b ∈ (spawnFragments t ax ay ivx ivy off lo hi n g).1, b.tier = t := by
  induction n generalizing g with
  | zero => intro b hb; simp [spawnFragments] at hb
  | succ n ih =>
    intro b hb
    simp only [spawnFragments, List.mem_cons] at hb
    rcases hb with hb | hb
    · subst hb; simp [spawnAsteroid]
    · exact ih _ b hb

theorem spawnFragments_hp (t : Tier) (ax ay ivx ivy off lo hi : ℝ)
    (n : ℕ) (g : Rng) :
    ∀ b ∈ (spawnFragments t ax ay ivx ivy off lo hi n g).1, b.hp = tierHp t := by
  induction n generalizing g with
  | zero => intro b hb; simp [spawnFragments] at hb
  | succ n ih =>
    intro b hb
    simp only [spawnFragments, List.mem_cons] at hb
    rcases hb with hb | hb
    · subst hb; simp [spawnAsteroid]
    · exact ih _ b hb

/-! ## C9: speed-cap idempotence and direction preservation -/

theorem maxSpeedFor_pos (u : Upgrades) : 0 < maxSpeedFor u := by
  have h : (0 : ℝ) ≤ u.engineLevel := Nat.cast_nonneg _
  unfold maxSpeedFor MAX_SPEED
  nlinarith

/-- C9: in the ship control step, for every velocity vector and upgrade
level, if the speed exceeds maxSpeed (base max speed plus engine bonus)
before capping, then after the capping step the speed equals maxSpeed
exactly and the velocity is a positive scalar multiple of the original
(direction unchanged); no other ship field changes. -/
theorem c9_speed_cap (u : Upgrades) (s : Ship)
    (h : Real.sqrt (s.vx * s.vx + s.vy * s.vy) > maxSpeedFor u) :
    Real.sqrt ((capSpeed u s).vx * (capSpeed u s).vx +
        (capSpeed u s).vy * (capSpeed u s).vy) = maxSpeedFor u
    ∧ (∃ c : ℝ, 0 < c ∧ (capSpeed u s).vx = c * s.vx ∧ (capSpeed u s).vy = c * s.vy)
    ∧ (capSpeed u s).x = s.x ∧ (capSpeed u s).y = s.y
    ∧ (capSpeed u s).angle = s.angle ∧ (capSpeed u s).hull = s.hull := by
  have hM : 0 < maxSpeedFor u := maxSpeedFor_pos u
  have hnn : 0 ≤ s.vx * s.vx + s.vy * s.vy :=
    add_nonneg (mul_self_nonneg _) (mul_self_nonneg _)
  have hv : 0 < Real.sqrt (s.vx * s.vx + s.vy * s.vy) := lt_trans hM h
  set v := Real.sqrt (s.vx * s.vx + s.vy * s.vy) with hvdef
  have hvsq : v * v = s.vx * s.vx + s.vy * s.vy := Real.mul_self_sqrt hnn
  have hcap : capSpeed u s =
      { s with vx := s.vx / v * maxSpeedFor u, vy := s.vy / v * maxSpeedFor u } := by
    unfold capSpeed
    rw [← hvdef, if_pos h]
  refine ⟨?_, ⟨maxSpeedFor u / v, ?_, ?_, ?_⟩, ?_, ?_, ?_, ?_⟩
  · rw [hcap]
    have step : s.vx / v * maxSpeedFor u * (s.vx / v * maxSpeedFor u) +
        s.vy / v * maxSpeedFor u * (s.vy / v * maxSpeedFor u) =
        (s.vx * s.vx + s.vy * s.vy) / (v * v) * (maxSpeedFor u * maxSpeedFor u) := by
      ring
    rw [step, ← hvsq, div_self (ne_of_gt (mul_pos hv hv)), one_mul,
      Real.sqrt_mul_self hM.le]
  · exact div_pos hM hv
  · rw [hcap]; field_simp; ring
  · rw [hcap]; field_simp; ring
  · rw [hcap]
  · rw [hcap]
  · rw [hcap]
  · rw [hcap]

/-- The App shell's starting upgrade levels. -/
def startUpgrades : Upgrades :=
  { engineLevel := 1, handlingLevel := 1, hullLevel := 1,
    cargoLevel := 1, laserLevel := 1, shieldLevel := 0 }

/-- A ship moving at speed 50 (components 30, 40), above the level-1 cap
8.5. -/
def fastShip : Ship :=
  { x := 0, y := 0, vx := 30, vy := 40, angle := 0, radius := SHIP_RADIUS,
    hull := 100, maxHull := 100, shield := 0, maxShield := 0,
    cargo := 0, maxCargo := 20, ammo := 3, invulnerableTimer := 0 }

theorem c9_speed_cap_witness :
    Real.sqrt ((capSpeed startUpgrades fastShip).vx * (capSpeed startUpgrades fastShip).vx +
        (capSpeed startUpgrades fastShip).vy * (capSpeed startUpgrades fastShip).vy) =
      maxSpeedFor startUpgrades
    ∧ (∃ c : ℝ, 0 < c ∧ (capSpeed startUpgrades fastShip).vx = c * fastShip.vx
        ∧ (capSpeed startUpgrades fastShip).vy = c * fastShip.vy)
    ∧ (capSpeed startUpgrades fastShip).x = fastShip.x
    ∧ (capSpeed startUpgrades fastShip).y = fastShip.y
    ∧ (capSpeed startUpgrades fastShip).angle = fastShip.angle
    ∧ (capSpeed startUpgrades fastShip).hull = fastShip.hull := by
  apply c9_speed_cap
  show Real.sqrt (fastShip.vx * fastShip.vx + fastShip.vy * fastShip.vy) >
    maxSpeedFor startUpgrades
  have : fastShip.vx * fastShip.vx + fastShip.vy * fastShip.vy = (50 : ℝ) ^ 2 := by
    show (30 : ℝ) * 30 + 40 * 40 = 50 ^ 2
    norm_num
  rw [this, Real.sqrt_sq (by norm_num : (0 : ℝ) ≤ 50)]
  unfold maxSpeedFor MAX_SPEED startUpgrades
  norm_num

/-! ## C4: fragmentation conservation and exclusivity -/

/-- C4: fragmentation is conserving and exclusive for every destroyed
asteroid and every draw of the random stream: destroying one CHUNK spawns
exactly 10 ORE children, one TITAN exactly 5 CHUNK children, one VOLATILE
exactly 8 CHUNK children, ORE spawns nothing; the fragmentation path never
emits a pickup event, and the collision pass (the only pickup source) never
spawns asteroids, so no destroyed asteroid produces both a pickup event and
a fragmentation event. -/
theorem c4_fragmentation_conservation :
    (∀ (a : Asteroid) (ivx ivy : ℝ) (g : Rng), a.tier = Tier.CHUNK →
      (breakAsteroid a ivx ivy g).1.length = 10 ∧
        ∀ b ∈ (breakAsteroid a ivx ivy g).1, b.tier = Tier.ORE)
    ∧ (∀ (a : Asteroid) (ivx ivy : ℝ) (g : Rng), a.tier = Tier.TITAN →
      (breakAsteroid a ivx ivy g).1.length = 5 ∧
        ∀ b ∈ (breakAsteroid a ivx ivy g).1, b.tier = Tier.CHUNK)
    ∧ (∀ (a : Asteroid) (ivx ivy : ℝ) (g : Rng), a.tier = Tier.VOLATILE →
      (breakAsteroid a ivx ivy g).1.length = 8 ∧
        ∀ b ∈ (breakAsteroid a ivx ivy g).1, b.tier = Tier.CHUNK)
    ∧ (∀ (a : Asteroid) (ivx ivy : ℝ) (g : Rng), a.tier = Tier.ORE →
      (breakAsteroid a ivx ivy g).1 = [] ∧ (breakAsteroid a ivx ivy g).2.2 = [])
    ∧ (∀ (a : Asteroid) (ivx ivy : ℝ) (g : Rng),
      Event.pickup ∉ (breakAsteroid a ivx ivy g).2.2)
    ∧ (∀ (l : List Asteroid) (s : Ship) (t : ℕ) (o : ℤ),
      (asteroidsStep l s t o).1.length = l.length) := by
  refine ⟨?_, ?_, ?_, ?_, ?_, ?_⟩
  · intro a ivx ivy g ht
    unfold breakAsteroid
    rw [ht]
    simp only [reduceCtorEq, if_false, if_true]
    exact ⟨spawnFragments_length _ _ _ _ _ _ _ _ _ _,
      spawnFragments_tier _ _ _ _ _ _ _ _ _ _⟩
  · intro a ivx ivy g ht
    unfold breakAsteroid
    rw [ht]
    simp only [reduceCtorEq, if_false, if_true]
    exact ⟨spawnFragments_length _ _ _ _ _ _ _ _ _ _,
      spawnFragments_tier _ _ _ _ _ _ _ _ _ _⟩
  · intro a ivx ivy g ht
    unfold breakAsteroid
    rw [ht]
    simp only [if_true]
    exact ⟨spawnFragments_length _ _ _ _ _ _ _ _ _ _,
      spawnFragments_tier _ _ _ _ _ _ _ _ _ _⟩
  · intro a ivx ivy g ht
    unfold breakAsteroid
    rw [ht]
    simp
  · intro a ivx ivy g
    unfold breakAsteroid
    split_ifs <;> simp
  · intro l s t o
    induction l generalizing s t o with
    | nil => rfl
    | cons a rest ih =>
      unfold asteroidsStep
      simp only [List.length_cons]
      rw [ih]

/-! ## Ship frame lemmas through the tick stages -/

theorem distance_nonneg (p q : Point) : 0 ≤ distance p q :=
  Real.sqrt_nonneg _

/-- What one damage-capable stage may do to the ship's bounded resources:
hull only decreases, shield is kept or zeroed, cargo stays within its
bounds, the caps never change, and a nonnegative invulnerability timer stays
nonnegative. -/
def DamageStep (s t : Ship) : Prop :=
  t.hull ≤ s.hull ∧ t.maxHull = s.maxHull ∧
  (t.shield = s.shield ∨ t.shield = 0) ∧ t.maxShield = s.maxShield ∧
  (0 ≤ s.cargo → 0 ≤ t.cargo) ∧ (s.cargo ≤ s.maxCargo → t.cargo ≤ s.maxCargo) ∧
  t.maxCargo = s.maxCargo ∧
  (0 ≤ s.invulnerableTimer → 0 ≤ t.invulnerableTimer)

theorem DamageStep.step_refl (s : Ship) : DamageStep s s :=
  ⟨le_refl _, rfl, Or.inl rfl, rfl, fun h => h, fun h => h, rfl, fun h => h⟩

theorem DamageStep.step_trans {s t u : Ship} (h1 : DamageStep s t) (h2 : DamageStep t u) :
    DamageStep s u := by
  obtain ⟨a1, b1, c1, d1, e1, f1, g1, i1⟩ := h1
  obtain ⟨a2, b2, c2, d2, e2, f2, g2, i2⟩ := h2
  refine ⟨le_trans a2 a1, b2.trans b1, ?_, d2.trans d1, fun h => e2 (e1 h), ?_,
    g2.trans g1, fun h => i2 (i1 h)⟩
  · rcases c2 with h | h
    · rw [h]; exact c1
    · exact Or.inr h
  · intro h
    have ht : t.cargo ≤ t.maxCargo := by rw [g1]; exact f1 h
    have hu := f2 ht
    rwa [g1] at hu

/-- While the invulnerability timer is positive, a stage leaves hull, shield
and the timer itself untouched. -/
def KeepsVitals (s t : Ship) : Prop :=
  t.hull = s.hull ∧ t.shield = s.shield ∧
  t.invulnerableTimer = s.invulnerableTimer

theorem KeepsVitals.vitals_refl (s : Ship) : KeepsVitals s s := ⟨rfl, rfl, rfl⟩

theorem KeepsVitals.vitals_trans {s t u : Ship} (h1 : KeepsVitals s t)
    (h2 : KeepsVitals t u) : KeepsVitals s u :=
  ⟨h2.1.trans h1.1, h2.2.1.trans h1.2.1, h2.2.2.trans h1.2.2⟩

theorem capSpeed_keeps (u : Upgrades) (s : Ship) :
    (capSpeed u s).hull = s.hull ∧ (capSpeed u s).maxHull = s.maxHull ∧
    (capSpeed u s).shield = s.shield ∧ (capSpeed u s).maxShield = s.maxShield ∧
    (capSpeed u s).cargo = s.cargo ∧ (capSpeed u s).maxCargo = s.maxCargo ∧
    (capSpeed u s).invulnerableTimer = s.invulnerableTimer := by
  simp only [capSpeed]
  refine ⟨?_, ?_, ?_, ?_, ?_, ?_, ?_⟩ <;> split_ifs <;> rfl

theorem controlStep_keeps (i : Input) (u : Upgrades) (s : Ship) :
    (controlStep i u s).hull = s.hull ∧ (controlStep i u s).maxHull = s.maxHull ∧
    (controlStep i u s).shield = s.shield ∧
    (controlStep i u s).maxShield = s.maxShield ∧
    (controlStep i u s).cargo = s.cargo ∧ (controlStep i u s).maxCargo = s.maxCargo ∧
    (controlStep i u s).invulnerableTimer = s.invulnerableTimer := by
  simp only [controlStep, capSpeed]
  refine ⟨?_, ?_, ?_, ?_, ?_, ?_, ?_⟩ <;>
    simp only [apply_ite Ship.hull, apply_ite Ship.maxHull, apply_ite Ship.shield,
      apply_ite Ship.maxShield, apply_ite Ship.cargo, apply_ite Ship.maxCargo,
      apply_ite Ship.invulnerableTimer, ite_self]

theorem puckerPullShip_keeps (m : Mine) (s : Ship) :
    (puckerPullShip m s).hull = s.hull ∧
    (puckerPullShip m s).maxHull = s.maxHull ∧
    (puckerPullShip m s).shield = s.shield ∧
    (puckerPullShip m s).maxShield = s.maxShield ∧
    (puckerPullShip m s).cargo = s.cargo ∧
    (puckerPullShip m s).maxCargo = s.maxCargo ∧
    (puckerPullShip m s).invulnerableTimer = s.invulnerableTimer := by
  simp only [puckerPullShip]
  refine ⟨?_, ?_, ?_, ?_, ?_, ?_, ?_⟩ <;> split_ifs <;> rfl

theorem blastRatioPos {d : ℝ} (h : d < MINE_BLAST_RADIUS) :
    0 < 1 - d / MINE_BLAST_RADIUS := by
  unfold MINE_BLAST_RADIUS at h ⊢
  have hd : d / 300 < 1 := by
    rw [div_lt_one (by norm_num)]
    exact h
  linarith

theorem blastShip_damage (m : Mine) (s : Ship) : DamageStep s (blastShip m s) := by
  simp only [blastShip]
  split_ifs with h1 h2 h3
  · exact ⟨le_refl _, rfl, Or.inr rfl, rfl, fun h => h, fun h => h, rfl,
      fun _ => by norm_num⟩
  · refine ⟨?_, rfl, Or.inl rfl, rfl, fun h => h, fun h => h, rfl,
      fun _ => by norm_num⟩
    have hpos := blastRatioPos h1
    show s.hull - 50 * (1 - distance ⟨m.x, m.y⟩ ⟨s.x, s.y⟩ / MINE_BLAST_RADIUS) ≤ s.hull
    nlinarith
  · exact DamageStep.step_refl s
  · exact DamageStep.step_refl s

theorem blastShip_invuln (m : Mine) (s : Ship) (h : 0 < s.invulnerableTimer) :
    KeepsVitals s (blastShip m s) := by
  simp only [blastShip]
  split_ifs with h1 h2 h3
  · exfalso
    simp only [Ship.invulnerableTimer] at h2
    omega
  · exfalso
    simp only [Ship.invulnerableTimer] at h2
    omega
  · exact ⟨rfl, rfl, rfl⟩
  · exact KeepsVitals.vitals_refl s

theorem stepMine_ship_damage (m : Mine) (s : Ship) (l : List Asteroid) (g : Rng) :
    DamageStep s (stepMine m s l g).2.1 := by
  simp only [stepMine, apply_ite Prod.snd, apply_ite Prod.fst]
  split_ifs with h1 h2
  · obtain ⟨a, b, c, d, e, f, i⟩ := puckerPullShip_keeps
      { x := m.x, y := m.y, timer := m.timer - 1, state := MineState.PUCKER } s
    exact ⟨le_of_eq a, b, Or.inl c, d, fun h => e ▸ h, fun h => e ▸ h, f,
      fun h => i ▸ h⟩
  · exact blastShip_damage _ s
  · exact DamageStep.step_refl s

theorem stepMine_ship_invuln (m : Mine) (s : Ship) (l : List Asteroid) (g : Rng)
    (h : 0 < s.invulnerableTimer) : KeepsVitals s (stepMine m s l g).2.1 := by
  simp only [stepMine, apply_ite Prod.snd, apply_ite Prod.fst]
  split_ifs with h1 h2
  · obtain ⟨a, b, c, d, e, f, i⟩ := puckerPullShip_keeps
      { x := m.x, y := m.y, timer := m.timer - 1, state := MineState.PUCKER } s
    exact ⟨a, c, i⟩
  · exact blastShip_invuln _ s h
  · exact KeepsVitals.vitals_refl s

theorem minesStepList_ship_damage (ms : List Mine) (s : Ship) (l : List Asteroid)
    (g : Rng) : DamageStep s (minesStepList ms s l g).2.1 := by
  induction ms generalizing s l g with
  | nil => exact DamageStep.step_refl s
  | cons m rest ih =>
    simp only [minesStepList]
    exact DamageStep.step_trans (stepMine_ship_damage m s l g) (ih _ _ _)

theorem minesStepList_ship_invuln (ms : List Mine) (s : Ship) (l : List Asteroid)
    (g : Rng) (h : 0 < s.invulnerableTimer) :
    KeepsVitals s (minesStepList ms s l g).2.1 := by
  induction ms generalizing s l g with
  | nil => exact KeepsVitals.vitals_refl s
  | cons m rest ih =>
    simp only [minesStepList]
    have h1 := stepMine_ship_invuln m s l g h
    have h2 : 0 < (stepMine m s l g).2.1.invulnerableTimer := by rw [h1.2.2]; exact h
    exact KeepsVitals.vitals_trans h1 (ih _ _ _ h2)

theorem tierDamage_pos (t : Tier) : 0 < tierDamage t := by
  cases t <;> norm_num [tierDamage]

theorem shipCollide_damage (s : Ship) (a : Asteroid) (o : ℤ) :
    DamageStep s (shipCollide s a o).1 := by
  simp only [shipCollide, apply_ite Prod.fst]
  split_ifs
  all_goals try exact DamageStep.step_refl s
  all_goals try exact ⟨le_refl _, rfl, Or.inr rfl, rfl, fun h => h, fun h => h, rfl,
    fun _ => by norm_num⟩
  all_goals try exact ⟨le_refl _, rfl, Or.inl rfl, rfl,
    fun h => by simp only [Ship.cargo]; omega,
    fun h => by simp only [Ship.cargo, Ship.maxCargo]; omega, rfl, fun h => h⟩
  all_goals refine ⟨?_, rfl, Or.inl rfl, rfl, fun h => h, fun h => h, rfl,
    fun _ => by norm_num⟩
  all_goals show s.hull - tierDamage a.tier ≤ s.hull
  all_goals linarith [tierDamage_pos a.tier]

theorem shipCollide_invuln (s : Ship) (a : Asteroid) (o : ℤ)
    (h : 0 < s.invulnerableTimer) : KeepsVitals s (shipCollide s a o).1 := by
  simp only [shipCollide, apply_ite Prod.fst]
  split_ifs
  all_goals try exact KeepsVitals.vitals_refl s
  all_goals try exact ⟨rfl, rfl, rfl⟩
  all_goals omega

theorem asteroidsStep_ship_damage (l : List Asteroid) (s : Ship) (t : ℕ) (o : ℤ) :
    DamageStep s (asteroidsStep l s t o).2.1 := by
  induction l generalizing s t o with
  | nil => exact DamageStep.step_refl s
  | cons a rest ih =>
    simp only [asteroidsStep]
    exact DamageStep.step_trans (shipCollide_damage s (moveAst a) o) (ih _ _ _)

theorem asteroidsStep_ship_invuln (l : List Asteroid) (s : Ship) (t : ℕ) (o : ℤ)
    (h : 0 < s.invulnerableTimer) : KeepsVitals s (asteroidsStep l s t o).2.1 := by
  induction l generalizing s t o with
  | nil => exact KeepsVitals.vitals_refl s
  | cons a rest ih =>
    simp only [asteroidsStep]
    have h1 := shipCollide_invuln s (moveAst a) o h
    have h2 : 0 < (shipCollide s (moveAst a) o).1.invulnerableTimer := by
      rw [h1.2.2]; exact h
    exact KeepsVitals.vitals_trans h1 (ih _ _ _ h2)

theorem sectorCheck_ship (w : World) (t : ℕ) : (sectorCheck w t).1.ship = w.ship := by
  simp only [sectorCheck]
  split_ifs <;> rfl

theorem dockCheck_ship (w : World) : (dockCheck w).1.ship = w.ship := by
  simp only [dockCheck]
  split_ifs <;> rfl

theorem endStep_ship (w : World) :
    (endStep w).1.ship =
      if 0 < w.ship.invulnerableTimer then
        { w.ship with invulnerableTimer := w.ship.invulnerableTimer - 1 }
      else w.ship := by
  simp only [endStep]
  split_ifs <;> rfl

theorem endStep_game_over (w : World) :
    (endStep w).1.ship.hull ≤ 0 → (endStep w).1.phase = GamePhase.GAME_OVER := by
  simp only [endStep]
  split_ifs <;> intro hh <;> first | rfl | exact absurd hh (by assumption)

/-! ## Named mid-tick views of the update pipeline -/

/-- The ship after the control and physics step of the tick. -/
def midShip (i : Input) (w : World) : Ship := controlStep i w.upgrades w.ship

/-- The asteroid list, rng and events after the laser section. -/
def midLaser (i : Input) (w : World) : List Asteroid × Rng × List Event :=
  laserStep i w.upgrades (midShip i w) w.asteroids w.rng

/-- The asteroid list and rng after the tractor section. -/
def midTractor (i : Input) (w : World) : List Asteroid × Rng :=
  tractorStep i (midShip i w) (midLaser i w).1 (midLaser i w).2.1

/-- Mines, ship, asteroids, rng and events after the mine section. -/
def midMines (i : Input) (w : World) :
    List Mine × Ship × List Asteroid × Rng × List Event :=
  minesStepList w.mines (midShip i w) (midTractor i w).1 (midTractor i w).2

/-- The asteroid list after the dead-asteroid purge that follows the mine
section. -/
def midSurvivors (i : Input) (w : World) : List Asteroid :=
  (midMines i w).2.2.1.filter (fun a => decide (a.hp > 0))

/-- Asteroids, ship, surviving TITAN/VOLATILE count, ore counter and events
after the asteroid physics and collision section. -/
def midAsteroids (i : Input) (w : World) :
    List Asteroid × Ship × ℕ × ℤ × List Event :=
  asteroidsStep (midSurvivors i w) (midMines i w).2.1 0 w.sectorOreCollected

/-- The surviving TITAN/VOLATILE count inspected by the sector check. -/
def titansLeftOf (i : Input) (w : World) : ℕ := (midAsteroids i w).2.2.1

/-- The world just before the sector check. -/
def midWorld (i : Input) (w : World) : World :=
  { w with ship := (midAsteroids i w).2.1, asteroids := (midAsteroids i w).1,
           mines := (midMines i w).1.filter
             (fun m => decide (m.state ≠ MineState.DETONATING)),
           rng := (midMines i w).2.2.2.1,
           sectorOreCollected := (midAsteroids i w).2.2.2.1 }

theorem update_eq (i : Input) (w : World) (hp : w.phase = GamePhase.PLAYING) :
    update i w =
      ((endStep (dockCheck (sectorCheck (midWorld i w) (titansLeftOf i w)).1).1).1,
       (midLaser i w).2.2 ++ (midMines i w).2.2.2.2 ++ (midAsteroids i w).2.2.2.2 ++
         (sectorCheck (midWorld i w) (titansLeftOf i w)).2 ++
         (dockCheck (sectorCheck (midWorld i w) (titansLeftOf i w)).1).2 ++
         (endStep (dockCheck (sectorCheck (midWorld i w) (titansLeftOf i w)).1).1).2) := by
  rw [update, if_neg (by simp [hp])]
  rfl

theorem update_not_playing (i : Input) (w : World)
    (h : w.phase ≠ GamePhase.PLAYING) : update i w = (w, []) := by
  rw [update, if_pos h]

/-- The ship the tick hands to the final timer/game-over step. -/
theorem update_mid_ship (i : Input) (w : World) (hp : w.phase = GamePhase.PLAYING) :
    (dockCheck (sectorCheck (midWorld i w) (titansLeftOf i w)).1).1.ship =
      (midAsteroids i w).2.1 := by
  rw [dockCheck_ship, sectorCheck_ship]
  rfl

theorem midShip_damage (i : Input) (w : World) :
    DamageStep w.ship (midShip i w) := by
  obtain ⟨a, b, c, d, e, f, g⟩ := controlStep_keeps i w.upgrades w.ship
  exact ⟨le_of_eq a, b, Or.inl c, d, fun h => e ▸ h, fun h => e ▸ h, f,
    fun h => g ▸ h⟩

theorem midAsteroids_ship_damage (i : Input) (w : World) :
    DamageStep w.ship (midAsteroids i w).2.1 :=
  DamageStep.step_trans (midShip_damage i w)
    (DamageStep.step_trans (minesStepList_ship_damage _ _ _ _)
      (asteroidsStep_ship_damage _ _ _ _))

theorem midAsteroids_ship_invuln (i : Input) (w : World)
    (h : 0 < w.ship.invulnerableTimer) :
    KeepsVitals w.ship (midAsteroids i w).2.1 := by
  obtain ⟨a, b, c, d, e, f, g⟩ := controlStep_keeps i w.upgrades w.ship
  have k1 : KeepsVitals w.ship (midShip i w) := ⟨a, c, g⟩
  have h1 : 0 < (midShip i w).invulnerableTimer := by rw [k1.2.2]; exact h
  have k2 : KeepsVitals (midShip i w) (midMines i w).2.1 :=
    minesStepList_ship_invuln w.mines (midShip i w) (midTractor i w).1
      (midTractor i w).2 h1
  have h2 : 0 < (midMines i w).2.1.invulnerableTimer := by rw [k2.2.2]; exact h1
  have k3 : KeepsVitals (midMines i w).2.1 (midAsteroids i w).2.1 :=
    asteroidsStep_ship_invuln (midSurvivors i w) (midMines i w).2.1 0
      w.sectorOreCollected h2
  exact KeepsVitals.vitals_trans k1 (KeepsVitals.vitals_trans k2 k3)

/-! ## C6: invulnerability monotonicity -/

/-- C6: once the invulnerability timer is positive, a PLAYING tick decreases
it by exactly 1 and no damage event reduces hull or shield during that tick;
and the timer never goes below zero on any tick. -/
theorem c6_invulnerability_monotone :
    (∀ (i : Input) (w : World), w.phase = GamePhase.PLAYING →
      0 < w.ship.invulnerableTimer →
      (update i w).1.ship.invulnerableTimer = w.ship.invulnerableTimer - 1 ∧
      (update i w).1.ship.hull = w.ship.hull ∧
      (update i w).1.ship.shield = w.ship.shield) ∧
    (∀ (i : Input) (w : World), 0 ≤ w.ship.invulnerableTimer →
      0 ≤ (update i w).1.ship.invulnerableTimer) := by
  constructor
  · intro i w hp hpos
    rw [update_eq i w hp]
    have hk := midAsteroids_ship_invuln i w hpos
    have hts : 0 < (midAsteroids i w).2.1.invulnerableTimer := by
      rw [hk.2.2]; exact hpos
    rw [endStep_ship, update_mid_ship i w hp, if_pos hts]
    refine ⟨?_, hk.1, hk.2.1⟩
    show (midAsteroids i w).2.1.invulnerableTimer - 1 =
      w.ship.invulnerableTimer - 1
    rw [hk.2.2]
  · intro i w hpos
    by_cases hp : w.phase = GamePhase.PLAYING
    · rw [update_eq i w hp]
      have hd := midAsteroids_ship_damage i w
      have hmid : 0 ≤ (midAsteroids i w).2.1.invulnerableTimer :=
        hd.2.2.2.2.2.2.2 hpos
      rw [endStep_ship, update_mid_ship i w hp]
      split_ifs with ht
      · show 0 ≤ (midAsteroids i w).2.1.invulnerableTimer - 1
        omega
      · exact hmid
    · rw [update_not_playing i w hp]
      exact hpos

/-! ## C1 (amended): resource bounds preserved by every tick -/

/-- The ship resource bounds of the data-model invariant, without the hull
lower bound (which the code does not maintain). -/
def ShipBounds (s : Ship) : Prop :=
  s.hull ≤ s.maxHull ∧ 0 ≤ s.shield ∧ s.shield ≤ s.maxShield ∧
  0 ≤ s.cargo ∧ s.cargo ≤ s.maxCargo

/-- C1 (amended): every tick preserves hull ≤ maxHull,
0 ≤ shield ≤ maxShield and 0 ≤ cargo ≤ maxCargo; the hull lower bound of the
claim is refuted separately. -/
theorem c1_bounds_preserved (i : Input) (w : World) (hb : ShipBounds w.ship) :
    ShipBounds (update i w).1.ship := by
  obtain ⟨b1, b2, b3, b4, b5⟩ := hb
  by_cases hp : w.phase = GamePhase.PLAYING
  · rw [update_eq i w hp]
    have hd := midAsteroids_ship_damage i w
    obtain ⟨d1, d2, d3, d4, d5, d6, d7, d8⟩ := hd
    have hbmid : ShipBounds (midAsteroids i w).2.1 := by
      refine ⟨le_trans d1 (by rw [d2]; exact b1), ?_, ?_, d5 b4, ?_⟩
      · rcases d3 with h | h
        · rw [h]; exact b2
        · rw [h]
      · rcases d3 with h | h
        · rw [h, d4]; exact b3
        · rw [h, d4]; exact le_trans b2 b3
      · rw [d7]; exact d6 b5
    rw [endStep_ship, update_mid_ship i w hp]
    obtain ⟨c1, c2, c3, c4, c5⟩ := hbmid
    split_ifs with ht
    · exact ⟨c1, c2, c3, c4, c5⟩
    · exact ⟨c1, c2, c3, c4, c5⟩
  · rw [update_not_playing i w hp]
    exact ⟨b1, b2, b3, b4, b5⟩

/-! ## Concrete evaluation helpers -/

theorem distance_x_axis {x1 x2 : ℝ} (h : x1 ≤ x2) :
    distance ⟨x1, 0⟩ ⟨x2, 0⟩ = x2 - x1 :=
  distance_eq (by linarith) (by ring)

theorem sqrt_sq_eval {a b : ℝ} (hb : 0 ≤ b) (h : a = b ^ 2) : Real.sqrt a = b := by
  rw [h, Real.sqrt_sq hb]

theorem atan2_zero_nonneg {x : ℝ} (hx : 0 ≤ x) : atan2 0 x = 0 := by
  unfold atan2
  exact Complex.arg_ofReal_of_nonneg hx

theorem atan2_zero_neg {x : ℝ} (hx : x < 0) : atan2 0 x = Real.pi := by
  unfold atan2
  exact Complex.arg_ofReal_of_neg hx

theorem controlStep_still (i : Input) (u : Upgrades) (s : Ship)
    (h1 : i.thrustKey = false) (h2 : i.reverseKey = false)
    (h3 : i.brakeKey = false) (h4 : i.leftKey = false) (h5 : i.rightKey = false)
    (hv : s.vx = 0) (hw : s.vy = 0) : controlStep i u s = s := by
  have hcap : capSpeed u s = s := by
    simp only [capSpeed]
    rw [if_neg]
    rw [hv, hw]
    simp only [mul_zero, add_zero, Real.sqrt_zero]
    exact not_lt.mpr (maxSpeedFor_pos u).le
  simp only [controlStep, h1, h2, h3, h4, h5, Bool.false_eq_true, if_false, hcap]
  ext <;> simp [hv, hw]

theorem laserStep_off (i : Input) (u : Upgrades) (s : Ship) (l : List Asteroid)
    (g : Rng) (h : i.mouseDown = false) : laserStep i u s l g = (l, g, []) := by
  simp [laserStep, h]

theorem tractorStep_off (i : Input) (s : Ship) (l : List Asteroid) (g : Rng)
    (h : i.rightDown = false) : tractorStep i s l g = (l, g) := by
  simp [tractorStep, h]

theorem minesStepList_nil (s : Ship) (l : List Asteroid) (g : Rng) :
    minesStepList [] s l g = ([], s, l, g, []) := by
  simp [minesStepList]

theorem filter_hp_nil :
    ([] : List Asteroid).filter (fun b => decide (b.hp > 0)) = [] := rfl

theorem filter_hp_cons (a : Asteroid) (l : List Asteroid) (h : a.hp > 0) :
    (a :: l).filter (fun b => decide (b.hp > 0)) =
      a :: l.filter (fun b => decide (b.hp > 0)) := by
  simp [List.filter_cons, h]

/-! ## The TITAN collision scenario -/

/-- No keys held, no pointer buttons. -/
def quietInput : Input :=
  { thrustKey := false, reverseKey := false, brakeKey := false, leftKey := false,
    rightKey := false, mouseDown := false, rightDown := false,
    aimDX := 0, aimDY := 0 }

/-- A stationary ship far from the station, with the given hull, no shield
and no invulnerability. -/
def collideShip (h0 : ℝ) : Ship :=
  { x := 1000, y := 0, vx := 0, vy := 0, angle := 0, radius := SHIP_RADIUS,
    hull := h0, maxHull := 100, shield := 0, maxShield := 0,
    cargo := 0, maxCargo := 20, ammo := 3, invulnerableTimer := 0 }

/-- A TITAN asteroid that this tick moves to x = 1010 with velocity -5
(giving relative speed 5 against the stationary ship). -/
def titanAst : Asteroid :=
  { x := 1010 + 500 / 99, y := 0, vx := -(500 / 99), vy := 0,
    radius := TITAN_RADIUS, angle := 0, rotationSpeed := 0,
    tier := Tier.TITAN, hp := 1000, shape := [] }

/-- titanAst after this tick's asteroid physics. -/
def titanAstMoved : Asteroid :=
  { x := 1010, y := 0, vx := -5, vy := 0, radius := TITAN_RADIUS, angle := 0,
    rotationSpeed := 0, tier := Tier.TITAN, hp := 1000, shape := [] }

/-- An arbitrary fixed random stream. -/
def anyRng : Rng := { seq := fun _ => 0, pos := 0 }

/-- A PLAYING world holding just the ship and the inbound TITAN. -/
def collideWorld (h0 : ℝ) : World :=
  { phase := GamePhase.PLAYING, ship := collideShip h0,
    upgrades := startUpgrades, asteroids := [titanAst], mines := [],
    sector := 1, prevSector := 1, levelInitialAsteroids := 0,
    sectorOreCollected := 0, rng := anyRng }

theorem moveAst_titan : moveAst titanAst = titanAstMoved := by
  simp only [moveAst, titanAst]
  rw [if_neg]
  · ext <;> simp [titanAstMoved] <;> norm_num
  · rw [distance_x_axis (by norm_num)]
    unfold STATION_SHIELD_RADIUS TITAN_RADIUS
    norm_num

/-- The ship right after the TITAN collision is resolved. -/
def collidedShip (h0 : ℝ) : Ship :=
  { x := 1000, y := 0, vx := -8, vy := 0, angle := 0, radius := SHIP_RADIUS,
    hull := h0 - 100, maxHull := 100, shield := 0, maxShield := 0,
    cargo := 0, maxCargo := 20, ammo := 3, invulnerableTimer := 60 }

theorem shipCollide_titan (h0 : ℝ) :
    (shipCollide (collideShip h0) titanAstMoved 0).1 = collidedShip h0 ∧
    (shipCollide (collideShip h0) titanAstMoved 0).2.1 = titanAstMoved ∧
    (shipCollide (collideShip h0) titanAstMoved 0).2.2.1 = 0 := by
  have hcol : checkCollision ⟨(collideShip h0).x, (collideShip h0).y⟩
      (collideShip h0).radius ⟨titanAstMoved.x, titanAstMoved.y⟩
      titanAstMoved.radius := by
    show distance _ _ < _
    simp only [collideShip, titanAstMoved]
    rw [distance_x_axis (by norm_num)]
    unfold SHIP_RADIUS TITAN_RADIUS
    norm_num
  have hvrel : Real.sqrt (((collideShip h0).vx - titanAstMoved.vx) ^ 2 +
      ((collideShip h0).vy - titanAstMoved.vy) ^ 2) = 5 := by
    simp only [collideShip, titanAstMoved]
    exact sqrt_sq_eval (by norm_num) (by norm_num)
  have hang : atan2 ((collideShip h0).y - titanAstMoved.y)
      ((collideShip h0).x - titanAstMoved.x) = Real.pi := by
    simp only [collideShip, titanAstMoved]
    rw [show (0 : ℝ) - 0 = 0 by norm_num]
    exact atan2_zero_neg (by norm_num)
  simp only [shipCollide, if_pos hcol]
  rw [if_neg (by simp [titanAstMoved]), if_pos (by simp [collideShip]),
    if_pos (Or.inl (by rw [hvrel]; norm_num)),
    if_neg (by simp [collideShip])]
  refine ⟨?_, rfl, rfl⟩
  rw [hang]
  ext <;> simp [collideShip, collidedShip, titanAstMoved, tierDamage] <;> norm_num

theorem update_collideWorld (h0 : ℝ) (hh0 : h0 ≤ 100) :
    (update quietInput (collideWorld h0)).1.ship.hull = h0 - 100 ∧
    (update quietInput (collideWorld h0)).1.phase = GamePhase.GAME_OVER := by
  have hp : (collideWorld h0).phase = GamePhase.PLAYING := rfl
  have hship : midShip quietInput (collideWorld h0) = collideShip h0 :=
    controlStep_still _ _ _ rfl rfl rfl rfl rfl rfl rfl
  have hlaser : midLaser quietInput (collideWorld h0) = ([titanAst], anyRng, []) := by
    unfold midLaser
    rw [laserStep_off _ _ _ _ _ rfl]
    rfl
  have htr : midTractor quietInput (collideWorld h0) = ([titanAst], anyRng) := by
    unfold midTractor
    rw [hlaser, tractorStep_off _ _ _ _ rfl]
  have hmines : midMines quietInput (collideWorld h0) =
      ([], collideShip h0, [titanAst], anyRng, []) := by
    unfold midMines
    rw [htr, hship]
    exact minesStepList_nil _ _ _
  have hsurv : midSurvivors quietInput (collideWorld h0) = [titanAst] := by
    unfold midSurvivors
    rw [hmines]
    rw [filter_hp_cons _ _ (by norm_num [titanAst]), filter_hp_nil]
  have hC := shipCollide_titan h0
  have hA : midAsteroids quietInput (collideWorld h0) =
      asteroidsStep [titanAst] (collideShip h0) 0 0 := by
    unfold midAsteroids
    rw [hsurv, hmines]
    rfl
  have hA1 : (midAsteroids quietInput (collideWorld h0)).2.1 =
      (shipCollide (collideShip h0) titanAstMoved 0).1 := by
    rw [hA]
    simp only [asteroidsStep, moveAst_titan]
  have hAship : (midAsteroids quietInput (collideWorld h0)).2.1 =
      collidedShip h0 := hA1.trans hC.1
  have hmidWorldShip : (dockCheck (sectorCheck
      (midWorld quietInput (collideWorld h0))
      (titansLeftOf quietInput (collideWorld h0))).1).1.ship =
      (midAsteroids quietInput (collideWorld h0)).2.1 :=
    update_mid_ship _ _ hp
  rw [update_eq _ _ hp, endStep_ship, hmidWorldShip, hAship,
    if_pos (by norm_num [collidedShip])]
  constructor
  · simp [collidedShip]
  · have h2 := endStep_game_over (dockCheck (sectorCheck
      (midWorld quietInput (collideWorld h0))
      (titansLeftOf quietInput (collideWorld h0))).1).1
    rw [endStep_ship, hmidWorldShip, hAship,
      if_pos (by norm_num [collidedShip])] at h2
    apply h2
    show (collidedShip h0).hull ≤ 0
    simp only [collidedShip]
    linarith

/-! ## C10: TITAN collision scenario and the game-over rule -/

/-- C10: hull at or below zero at the end of a PLAYING tick always yields
the GAME_OVER phase; and the concrete scenario: a ship with hull 100, max
hull 100, no shield and no invulnerability hit during PLAYING by a TITAN at
relative speed 5 ends the tick with hull exactly 0 and phase GAME_OVER. -/
theorem c10_titan_collision_game_over :
    (∀ (i : Input) (w : World), w.phase = GamePhase.PLAYING →
      (update i w).1.ship.hull ≤ 0 → (update i w).1.phase = GamePhase.GAME_OVER) ∧
    (collideWorld 100).ship.hull = 100 ∧ (collideWorld 100).ship.maxHull = 100 ∧
    (collideWorld 100).ship.shield = 0 ∧
    (collideWorld 100).ship.invulnerableTimer = 0 ∧
    (collideWorld 100).phase = GamePhase.PLAYING ∧
    (moveAst titanAst).tier = Tier.TITAN ∧
    Real.sqrt (((midShip quietInput (collideWorld 100)).vx -
        (moveAst titanAst).vx) ^ 2 +
      ((midShip quietInput (collideWorld 100)).vy -
        (moveAst titanAst).vy) ^ 2) = 5 ∧
    (update quietInput (collideWorld 100)).1.ship.hull = 0 ∧
    (update quietInput (collideWorld 100)).1.phase = GamePhase.GAME_OVER := by
  refine ⟨?_, rfl, rfl, rfl, rfl, rfl, ?_, ?_, ?_, ?_⟩
  · intro i w hp hh
    rw [update_eq i w hp] at hh ⊢
    exact endStep_game_over _ hh
  · rw [moveAst_titan]
    rfl
  · have hship : midShip quietInput (collideWorld 100) = collideShip 100 :=
      controlStep_still _ _ _ rfl rfl rfl rfl rfl rfl rfl
    rw [moveAst_titan, hship]
    simp only [collideShip, titanAstMoved]
    exact sqrt_sq_eval (by norm_num) (by norm_num)
  · rw [(update_collideWorld 100 (by norm_num)).1]
    norm_num
  · exact (update_collideWorld 100 (by norm_num)).2

/-! ## C1: counterexample to the hull lower bound -/

/-- C1 counterexample: from a pre-tick state satisfying every bound of the
claim (hull 10 within [0, 100], shield and cargo in range), one PLAYING tick
with a TITAN collision leaves the hull at -90, violating 0 ≤ hull after the
tick completes. -/
theorem c1_hull_goes_negative :
    ShipBounds (collideWorld 10).ship ∧ 0 ≤ (collideWorld 10).ship.hull ∧
    (collideWorld 10).phase = GamePhase.PLAYING ∧
    (update quietInput (collideWorld 10)).1.ship.hull < 0 := by
  refine ⟨by norm_num [ShipBounds, collideWorld, collideShip],
    by norm_num [collideWorld, collideShip], rfl, ?_⟩
  rw [(update_collideWorld 10 (by norm_num)).1]
  norm_num

theorem c1_bounds_preserved_witness :
    ShipBounds (update quietInput (collideWorld 10)).1.ship :=
  c1_bounds_preserved quietInput (collideWorld 10)
    (by norm_num [ShipBounds, collideWorld, collideShip])

/-! ## C3: mine blast characterization, at-most-once application, purge -/

theorem complex_mk_ne_zero {x y : ℝ} (h : 0 < x ^ 2 + y ^ 2) :
    (⟨x, y⟩ : ℂ) ≠ 0 := by
  intro hz
  rw [Complex.ext_iff] at hz
  simp only [Complex.zero_re, Complex.zero_im] at hz
  obtain ⟨hx, hy⟩ := hz
  rw [hx, hy] at h
  norm_num at h

theorem cos_atan2 {y x : ℝ} (h : (⟨x, y⟩ : ℂ) ≠ 0) :
    Real.cos (atan2 y x) = x / Real.sqrt (x ^ 2 + y ^ 2) := by
  unfold atan2
  rw [Complex.cos_arg h, Complex.abs_apply, Complex.normSq_mk]
  have hxy : x * x + y * y = x ^ 2 + y ^ 2 := by ring
  rw [hxy]

theorem sin_atan2 {y x : ℝ} :
    Real.sin (atan2 y x) = y / Real.sqrt (x ^ 2 + y ^ 2) := by
  unfold atan2
  rw [Complex.sin_arg, Complex.abs_apply, Complex.normSq_mk]
  have hxy : x * x + y * y = x ^ 2 + y ^ 2 := by ring
  rw [hxy]

theorem detonateList_processed (m : Mine) (l : List Asteroid) (g : Rng) :
    (detonateList m l g).1 = l.map (blastAst m) := by
  induction l generalizing g with
  | nil => rfl
  | cons a rest ih =>
    simp only [detonateList, List.map_cons]
    rw [ih]

theorem blastAst_out_of_range (m : Mine) (a : Asteroid)
    (h : ¬(distance ⟨m.x, m.y⟩ ⟨a.x, a.y⟩ < MINE_BLAST_RADIUS)) :
    blastAst m a = a := by
  simp only [blastAst]
  rw [if_neg h]

theorem blastAst_in_range (m : Mine) (a : Asteroid)
    (hd : 0 < distance ⟨m.x, m.y⟩ ⟨a.x, a.y⟩)
    (hin : distance ⟨m.x, m.y⟩ ⟨a.x, a.y⟩ < MINE_BLAST_RADIUS) :
    (blastAst m a).vx = a.vx + (a.x - m.x) / distance ⟨m.x, m.y⟩ ⟨a.x, a.y⟩ *
      (MINE_BLAST_FORCE * (1 - distance ⟨m.x, m.y⟩ ⟨a.x, a.y⟩ / MINE_BLAST_RADIUS)) ∧
    (blastAst m a).vy = a.vy + (a.y - m.y) / distance ⟨m.x, m.y⟩ ⟨a.x, a.y⟩ *
      (MINE_BLAST_FORCE * (1 - distance ⟨m.x, m.y⟩ ⟨a.x, a.y⟩ / MINE_BLAST_RADIUS)) ∧
    (a.tier = Tier.TITAN ∨ a.tier = Tier.VOLATILE → (blastAst m a).hp = 0) ∧
    (a.tier = Tier.CHUNK → (blastAst m a).hp = a.hp - 100) ∧
    (a.tier = Tier.ORE → (blastAst m a).hp = a.hp) ∧
    (blastAst m a).x = a.x ∧ (blastAst m a).y = a.y ∧
    (blastAst m a).tier = a.tier := by
  have hdist : distance ⟨m.x, m.y⟩ ⟨a.x, a.y⟩ =
      Real.sqrt ((a.x - m.x) ^ 2 + (a.y - m.y) ^ 2) := rfl
  have hz : (⟨a.x - m.x, a.y - m.y⟩ : ℂ) ≠ 0 := by
    apply complex_mk_ne_zero
    rw [hdist] at hd
    exact Real.sqrt_pos.mp hd
  have hcos : Real.cos (atan2 (a.y - m.y) (a.x - m.x)) =
      (a.x - m.x) / distance ⟨m.x, m.y⟩ ⟨a.x, a.y⟩ := by
    rw [hdist]
    exact cos_atan2 hz
  have hsin : Real.sin (atan2 (a.y - m.y) (a.x - m.x)) =
      (a.y - m.y) / distance ⟨m.x, m.y⟩ ⟨a.x, a.y⟩ := by
    rw [hdist]
    exact sin_atan2
  simp only [blastAst, if_pos hin]
  refine ⟨?_, ?_, ?_, ?_, ?_, ?_, ?_, ?_⟩
  · simp only [apply_ite Asteroid.vx, ite_self]
    rw [hcos]
  · simp only [apply_ite Asteroid.vy, ite_self]
    rw [hsin]
  · intro ht
    rw [if_pos ht]
  · intro ht
    rw [if_neg (by simp [ht]), if_pos (by simp [ht])]
  · intro ht
    rw [if_neg (by simp [ht]), if_neg (by simp [ht])]
  · simp only [apply_ite Asteroid.x, ite_self]
  · simp only [apply_ite Asteroid.y, ite_self]
  · simp only [apply_ite Asteroid.tier, ite_self]

theorem stepMine_detonates (m : Mine) (s : Ship) (l : List Asteroid) (g : Rng)
    (h : m.timer - 1 ≤ 0) :
    (stepMine m s l g).1.state = MineState.DETONATING := by
  simp only [stepMine, apply_ite Prod.fst]
  rw [if_neg (by omega), if_pos (by omega)]

theorem sectorCheck_mines (w : World) (t : ℕ) :
    (sectorCheck w t).1.mines = w.mines := by
  simp only [sectorCheck]
  split_ifs <;> rfl

theorem dockCheck_mines (w : World) : (dockCheck w).1.mines = w.mines := by
  simp only [dockCheck]
  split_ifs <;> rfl

theorem endStep_mines (w : World) : (endStep w).1.mines = w.mines := by
  simp only [endStep]
  split_ifs <;> rfl

/-- C3: a detonating mine processes the asteroid list as one map of the
blast effect, so every asteroid receives the blast damage/impulse exactly
once per mine; strictly inside the blast radius the impulse is the outward
radial vector scaled by (1 - d/blastRadius) times the blast force, TITAN
and VOLATILE are destroyed outright (hit points zeroed), CHUNK loses the
fixed 100 hit points, ORE takes no damage; outside the radius the asteroid
is untouched; a mine whose countdown reaches zero enters DETONATING, and no
mine surviving a PLAYING tick is DETONATING (the detonated mine is purged
the same frame). -/
theorem c3_mine_blast_exactly_once :
    (∀ (m : Mine) (l : List Asteroid) (g : Rng),
      (detonateList m l g).1 = l.map (blastAst m)) ∧
    (∀ (m : Mine) (a : Asteroid),
      0 < distance ⟨m.x, m.y⟩ ⟨a.x, a.y⟩ →
      distance ⟨m.x, m.y⟩ ⟨a.x, a.y⟩ < MINE_BLAST_RADIUS →
      (blastAst m a).vx = a.vx + (a.x - m.x) / distance ⟨m.x, m.y⟩ ⟨a.x, a.y⟩ *
        (MINE_BLAST_FORCE * (1 - distance ⟨m.x, m.y⟩ ⟨a.x, a.y⟩ / MINE_BLAST_RADIUS)) ∧
      (blastAst m a).vy = a.vy + (a.y - m.y) / distance ⟨m.x, m.y⟩ ⟨a.x, a.y⟩ *
        (MINE_BLAST_FORCE * (1 - distance ⟨m.x, m.y⟩ ⟨a.x, a.y⟩ / MINE_BLAST_RADIUS)) ∧
      (a.tier = Tier.TITAN ∨ a.tier = Tier.VOLATILE → (blastAst m a).hp = 0) ∧
      (a.tier = Tier.CHUNK → (blastAst m a).hp = a.hp - 100) ∧
      (a.tier = Tier.ORE → (blastAst m a).hp = a.hp)) ∧
    (∀ (m : Mine) (a : Asteroid),
      ¬(distance ⟨m.x, m.y⟩ ⟨a.x, a.y⟩ < MINE_BLAST_RADIUS) → blastAst m a = a) ∧
    (∀ (m : Mine) (s : Ship) (l : List Asteroid) (g : Rng), m.timer - 1 ≤ 0 →
      (stepMine m s l g).1.state = MineState.DETONATING) ∧
    (∀ (i : Input) (w : World) (m : Mine), w.phase = GamePhase.PLAYING →
      m ∈ (update i w).1.mines → m.state ≠ MineState.DETONATING) := by
  refine ⟨detonateList_processed, ?_, blastAst_out_of_range, stepMine_detonates, ?_⟩
  · intro m a hd hin
    obtain ⟨h1, h2, h3, h4, h5, _, _, _⟩ := blastAst_in_range m a hd hin
    exact ⟨h1, h2, h3, h4, h5⟩
  · intro i w m hp hm
    rw [update_eq i w hp, endStep_mines, dockCheck_mines, sectorCheck_mines] at hm
    simp only [midWorld] at hm
    rw [List.mem_filter] at hm
    exact of_decide_eq_true hm.2

/-! ## C8: dead-asteroid removal -/

theorem mem_filter_hp {l : List Asteroid} {a : Asteroid}
    (ha : a ∈ l.filter (fun b => decide (b.hp > 0))) : 0 < a.hp := by
  rw [List.mem_filter] at ha
  exact of_decide_eq_true ha.2

theorem laserStep_filtered (i : Input) (u : Upgrades) (s : Ship)
    (l : List Asteroid) (g : Rng) (h : i.mouseDown = true) :
    ∃ X : List Asteroid,
      (laserStep i u s l g).1 = X.filter (fun b => decide (b.hp > 0)) := by
  simp only [laserStep, h, if_true]
  split
  · split
    · split_ifs
      · exact ⟨_, rfl⟩
      · exact ⟨_, rfl⟩
    · exact ⟨l, rfl⟩
  · exact ⟨l, rfl⟩

theorem laserStep_alive (i : Input) (u : Upgrades) (s : Ship)
    (l : List Asteroid) (g : Rng) (h : i.mouseDown = true) :
    ∀ a ∈ (laserStep i u s l g).1, 0 < a.hp := by
  obtain ⟨X, hX⟩ := laserStep_filtered i u s l g h
  rw [hX]
  intro a ha
  exact mem_filter_hp ha

theorem moveAst_keeps (a : Asteroid) :
    (moveAst a).hp = a.hp ∧ (moveAst a).tier = a.tier := by
  simp only [moveAst]
  constructor <;>
    simp only [apply_ite Asteroid.hp, apply_ite Asteroid.tier, ite_self]

theorem shipCollide_ast (s : Ship) (a : Asteroid) (o : ℤ) :
    (shipCollide s a o).2.1 = a ∨
      (a.tier = Tier.ORE ∧ (shipCollide s a o).2.1 = { a with hp := 0 }) := by
  simp only [shipCollide, apply_ite Prod.snd, apply_ite Prod.fst]
  split_ifs <;> first
    | exact Or.inl rfl
    | exact Or.inr ⟨by assumption, rfl⟩

theorem asteroidsStep_dead_is_ore (l : List Asteroid) (s : Ship) (t : ℕ) (o : ℤ)
    (hl : ∀ a ∈ l, 0 < a.hp) :
    ∀ b ∈ (asteroidsStep l s t o).1, b.hp ≤ 0 → b.tier = Tier.ORE := by
  induction l generalizing s t o with
  | nil => intro b hb; simp [asteroidsStep] at hb
  | cons a rest ih =>
    intro b hb hdead
    simp only [asteroidsStep, List.mem_cons] at hb
    rcases hb with hb | hb
    · subst hb
      rcases shipCollide_ast s (moveAst a) o with hc | ⟨hore, hc⟩
      · rw [hc] at hdead
        rw [(moveAst_keeps a).1] at hdead
        have := hl a (List.mem_cons_self a rest)
        linarith
      · rw [hc]
        show (moveAst a).tier = Tier.ORE
        exact hore
    · exact ih _ _ _ (fun c hc => hl c (List.mem_cons_of_mem a hc)) b hb hdead

theorem sectorCheck_asteroids (w : World) (t : ℕ) :
    (sectorCheck w t).1.asteroids = w.asteroids := by
  simp only [sectorCheck]
  split_ifs <;> rfl

theorem dockCheck_asteroids (w : World) : (dockCheck w).1.asteroids = w.asteroids := by
  simp only [dockCheck]
  split_ifs <;> rfl

theorem endStep_asteroids (w : World) : (endStep w).1.asteroids = w.asteroids := by
  simp only [endStep]
  split_ifs <;> rfl

theorem update_asteroids (i : Input) (w : World)
    (hp : w.phase = GamePhase.PLAYING) :
    (update i w).1.asteroids = (midAsteroids i w).1 := by
  rw [update_eq i w hp, endStep_asteroids, dockCheck_asteroids,
    sectorCheck_asteroids]
  rfl

/-- C8 (amended): asteroids killed by the laser are purged inside the laser
section (its output holds only live asteroids); the purge after the mine
section leaves only live asteroids, so laser and blast kills never survive
their tick and a dead asteroid carried into a tick is removed before the
collision pass can touch it; and the only asteroids that can leave a
PLAYING tick with hp ≤ 0 are ORE zeroed by the cargo pickup in the
collision pass of that same tick — their removal happens at the next
tick's purge. -/
theorem c8_dead_asteroid_purge :
    (∀ (i : Input) (u : Upgrades) (s : Ship) (l : List Asteroid) (g : Rng),
      i.mouseDown = true → ∀ a ∈ (laserStep i u s l g).1, 0 < a.hp) ∧
    (∀ (i : Input) (w : World), ∀ a ∈ midSurvivors i w, 0 < a.hp) ∧
    (∀ (i : Input) (w : World), w.phase = GamePhase.PLAYING →
      ∀ a ∈ (update i w).1.asteroids, a.hp ≤ 0 → a.tier = Tier.ORE) := by
  refine ⟨laserStep_alive, ?_, ?_⟩
  · intro i w a ha
    exact mem_filter_hp ha
  · intro i w hp a ha hdead
    rw [update_asteroids i w hp] at ha
    exact asteroidsStep_dead_is_ore (midSurvivors i w) (midMines i w).2.1 0
      w.sectorOreCollected (fun b hb => mem_filter_hp hb) a ha hdead

/-! ## C8 counterexample: a collected ORE persists to the next tick -/

/-- A loose ORE in contact range of the scenario ship. -/
def oreAst : Asteroid :=
  { x := 1002, y := 0, vx := 0, vy := 0, radius := ORE_RADIUS, angle := 0,
    rotationSpeed := 0, tier := Tier.ORE, hp := 1, shape := [] }

/-- The same ORE after the pickup zeroes its hit points. -/
def oreCollected : Asteroid :=
  { x := 1002, y := 0, vx := 0, vy := 0, radius := ORE_RADIUS, angle := 0,
    rotationSpeed := 0, tier := Tier.ORE, hp := 0, shape := [] }

/-- A PLAYING world with the ship touching one ORE and cargo headroom. -/
def oreWorld : World :=
  { phase := GamePhase.PLAYING, ship := collideShip 100,
    upgrades := startUpgrades, asteroids := [oreAst], mines := [],
    sector := 1, prevSector := 1, levelInitialAsteroids := 0,
    sectorOreCollected := 0, rng := anyRng }

theorem moveAst_ore : moveAst oreAst = oreAst := by
  simp only [moveAst, oreAst]
  rw [if_neg]
  · ext <;> norm_num
  · rw [distance_x_axis (by norm_num)]
    unfold STATION_SHIELD_RADIUS ORE_RADIUS
    norm_num

theorem shipCollide_ore :
    (shipCollide (collideShip 100) oreAst 0).1 =
      { collideShip 100 with cargo := 1 } ∧
    (shipCollide (collideShip 100) oreAst 0).2.1 = oreCollected ∧
    (shipCollide (collideShip 100) oreAst 0).2.2.1 = 1 := by
  have hcol : checkCollision ⟨(collideShip 100).x, (collideShip 100).y⟩
      (collideShip 100).radius ⟨oreAst.x, oreAst.y⟩ oreAst.radius := by
    show distance _ _ < _
    simp only [collideShip, oreAst]
    rw [distance_x_axis (by norm_num)]
    unfold SHIP_RADIUS ORE_RADIUS
    norm_num
  simp only [shipCollide, if_pos hcol]
  rw [if_pos (show oreAst.tier = Tier.ORE from rfl),
    if_pos (show (collideShip 100).cargo < (collideShip 100).maxCargo by
      simp [collideShip])]
  refine ⟨rfl, ?_, rfl⟩
  ext <;> simp [oreAst, oreCollected]

theorem update_oreWorld :
    (update quietInput oreWorld).1.ship.cargo = 1 ∧
    (update quietInput oreWorld).1.asteroids = [oreCollected] := by
  have hp : oreWorld.phase = GamePhase.PLAYING := rfl
  have hship : midShip quietInput oreWorld = collideShip 100 :=
    controlStep_still _ _ _ rfl rfl rfl rfl rfl rfl rfl
  have hlaser : midLaser quietInput oreWorld = ([oreAst], anyRng, []) := by
    unfold midLaser
    rw [laserStep_off _ _ _ _ _ rfl]
    rfl
  have htr : midTractor quietInput oreWorld = ([oreAst], anyRng) := by
    unfold midTractor
    rw [hlaser, tractorStep_off _ _ _ _ rfl]
  have hmines : midMines quietInput oreWorld =
      ([], collideShip 100, [oreAst], anyRng, []) := by
    unfold midMines
    rw [htr, hship]
    exact minesStepList_nil _ _ _
  have hsurv : midSurvivors quietInput oreWorld = [oreAst] := by
    unfold midSurvivors
    rw [hmines]
    rw [filter_hp_cons _ _ (by norm_num [oreAst]), filter_hp_nil]
  have hA : midAsteroids quietInput oreWorld =
      asteroidsStep [oreAst] (collideShip 100) 0 0 := by
    unfold midAsteroids
    rw [hsurv, hmines]
    rfl
  have hC := shipCollide_ore
  have hA1 : (midAsteroids quietInput oreWorld).2.1 =
      { collideShip 100 with cargo := 1 } := by
    rw [hA]
    simp only [asteroidsStep, moveAst_ore]
    exact hC.1
  have hAlist : (midAsteroids quietInput oreWorld).1 = [oreCollected] := by
    rw [hA]
    simp only [asteroidsStep, moveAst_ore]
    rw [hC.2.1]
  constructor
  · have hmid := update_mid_ship quietInput oreWorld hp
    rw [update_eq _ _ hp, endStep_ship, hmid, hA1,
      if_neg (by simp [collideShip])]
  · rw [update_asteroids _ _ hp, hAlist]

/-- C8 counterexample: the ship collects the touching ORE during the tick
(cargo goes from 0 to 1, the ORE's hit points are zeroed), yet the ORE is
still in the asteroid collection when the tick completes — it is not
removed within the same tick. -/
theorem c8_collected_ore_persists :
    oreAst.hp = 1 ∧ oreWorld.ship.cargo = 0 ∧
    (update quietInput oreWorld).1.ship.cargo = 1 ∧
    (update quietInput oreWorld).1.asteroids = [oreCollected] ∧
    oreCollected.hp ≤ 0 := by
  refine ⟨rfl, rfl, update_oreWorld.1, update_oreWorld.2, le_refl 0⟩

/-! ## C5: mining-laser target selection -/

/-- The candidate filter the targeting fold tests an asteroid against:
eligible tier (not TITAN, VOLATILE or ORE), within laser range plus the
asteroid's radius of the ship, and within 0.2 rad of the aim bearing. -/
def laserCandidate (sx sy aimAngle : ℝ) (a : Asteroid) : Prop :=
  ¬(a.tier = Tier.TITAN ∨ a.tier = Tier.VOLATILE ∨ a.tier = Tier.ORE) ∧
  distance ⟨sx, sy⟩ ⟨a.x, a.y⟩ < LASER_RANGE + a.radius ∧
  |wrapAngle (atan2 (a.y - sy) (a.x - sx) - aimAngle)| < 0.2

theorem findTargetAux_le (sx sy aim : ℝ) (l : List Asteroid) :
    ∀ (k0 : ℕ) (best : Option ℕ) (bd : ℝ),
      (findTargetAux sx sy aim l k0 (best, bd)).2 ≤ bd := by
  induction l with
  | nil => intro k0 best bd; exact le_refl bd
  | cons a rest ih =>
    intro k0 best bd
    simp only [findTargetAux]
    by_cases h1 : a.tier = Tier.TITAN ∨ a.tier = Tier.VOLATILE ∨ a.tier = Tier.ORE
    · rw [if_pos h1]
      exact ih (k0 + 1) best bd
    rw [if_neg h1]
    by_cases h2 : distance ⟨sx, sy⟩ ⟨a.x, a.y⟩ < LASER_RANGE + a.radius
    swap
    · rw [if_neg h2]
      exact ih (k0 + 1) best bd
    rw [if_pos h2]
    by_cases h3 : |wrapAngle (atan2 (a.y - sy) (a.x - sx) - aim)| < 0.2
    swap
    · rw [if_neg h3]
      exact ih (k0 + 1) best bd
    rw [if_pos h3]
    by_cases h4 : distance ⟨sx, sy⟩ ⟨a.x, a.y⟩ < (best, bd).2
    swap
    · rw [if_neg h4]
      exact ih (k0 + 1) best bd
    rw [if_pos h4]
    exact le_trans (ih (k0 + 1) _ _) (le_of_lt h4)

theorem findTargetAux_spec (sx sy aim : ℝ) (l : List Asteroid) :
    ∀ (k0 : ℕ) (best : Option ℕ) (bd : ℝ),
      (findTargetAux sx sy aim l k0 (best, bd) = (best, bd) ∨
        ∃ (j : ℕ) (b : Asteroid), l[j]? = some b ∧
          (findTargetAux sx sy aim l k0 (best, bd)).1 = some (k0 + j) ∧
          laserCandidate sx sy aim b ∧
          (findTargetAux sx sy aim l k0 (best, bd)).2 =
            distance ⟨sx, sy⟩ ⟨b.x, b.y⟩ ∧
          (findTargetAux sx sy aim l k0 (best, bd)).2 < bd) ∧
      (∀ (j : ℕ) (b : Asteroid), l[j]? = some b → laserCandidate sx sy aim b →
        (findTargetAux sx sy aim l k0 (best, bd)).2 ≤
          distance ⟨sx, sy⟩ ⟨b.x, b.y⟩) := by
  induction l with
  | nil =>
    intro k0 best bd
    refine ⟨Or.inl rfl, ?_⟩
    intro j b hb
    simp at hb
  | cons a rest ih =>
    intro k0 best bd
    simp only [findTargetAux]
    by_cases h1 : a.tier = Tier.TITAN ∨ a.tier = Tier.VOLATILE ∨ a.tier = Tier.ORE
    · rw [if_pos h1]
      obtain ⟨hab, hc⟩ := ih (k0 + 1) best bd
      refine ⟨?_, ?_⟩
      · rcases hab with hab | ⟨j, b, hb, hk, hcand, hd, hlt⟩
        · exact Or.inl hab
        · right
          refine ⟨j + 1, b, by simpa using hb, ?_, hcand, hd, hlt⟩
          rw [hk]
          congr 1
          omega
      · intro j b hb hcand
        cases j with
        | zero =>
          simp only [List.getElem?_cons_zero, Option.some.injEq] at hb
          subst hb
          exact absurd h1 hcand.1
        | succ j =>
          simp only [List.getElem?_cons_succ] at hb
          exact hc j b hb hcand
    rw [if_neg h1]
    by_cases h2 : distance ⟨sx, sy⟩ ⟨a.x, a.y⟩ < LASER_RANGE + a.radius
    swap
    · rw [if_neg h2]
      obtain ⟨hab, hc⟩ := ih (k0 + 1) best bd
      refine ⟨?_, ?_⟩
      · rcases hab with hab | ⟨j, b, hb, hk, hcand, hd, hlt⟩
        · exact Or.inl hab
        · right
          refine ⟨j + 1, b, by simpa using hb, ?_, hcand, hd, hlt⟩
          rw [hk]
          congr 1
          omega
      · intro j b hb hcand
        cases j with
        | zero =>
          simp only [List.getElem?_cons_zero, Option.some.injEq] at hb
          subst hb
          exact absurd hcand.2.1 h2
        | succ j =>
          simp only [List.getElem?_cons_succ] at hb
          exact hc j b hb hcand
    rw [if_pos h2]
    by_cases h3 : |wrapAngle (atan2 (a.y - sy) (a.x - sx) - aim)| < 0.2
    swap
    · rw [if_neg h3]
      obtain ⟨hab, hc⟩ := ih (k0 + 1) best bd
      refine ⟨?_, ?_⟩
      · rcases hab with hab | ⟨j, b, hb, hk, hcand, hd, hlt⟩
        · exact Or.inl hab
        · right
          refine ⟨j + 1, b, by simpa using hb, ?_, hcand, hd, hlt⟩
          rw [hk]
          congr 1
          omega
      · intro j b hb hcand
        cases j with
        | zero =>
          simp only [List.getElem?_cons_zero, Option.some.injEq] at hb
          subst hb
          exact absurd hcand.2.2 h3
        | succ j =>
          simp only [List.getElem?_cons_succ] at hb
          exact hc j b hb hcand
    rw [if_pos h3]
    by_cases h4 : distance ⟨sx, sy⟩ ⟨a.x, a.y⟩ < (best, bd).2
    swap
    · rw [if_neg h4]
      obtain ⟨hab, hc⟩ := ih (k0 + 1) best bd
      refine ⟨?_, ?_⟩
      · rcases hab with hab | ⟨j, b, hb, hk, hcand, hd, hlt⟩
        · exact Or.inl hab
        · right
          refine ⟨j + 1, b, by simpa using hb, ?_, hcand, hd, hlt⟩
          rw [hk]
          congr 1
          omega
      · intro j b hb hcand
        cases j with
        | zero =>
          simp only [List.getElem?_cons_zero, Option.some.injEq] at hb
          subst hb
          have hle := findTargetAux_le sx sy aim rest (k0 + 1) best bd
          simp only at h4
          linarith [not_lt.mp h4]
        | succ j =>
          simp only [List.getElem?_cons_succ] at hb
          exact hc j b hb hcand
    rw [if_pos h4]
    obtain ⟨hab, hc⟩ := ih (k0 + 1) (some k0) (distance ⟨sx, sy⟩ ⟨a.x, a.y⟩)
    have hcanda : laserCandidate sx sy aim a := ⟨h1, h2, h3⟩
    refine ⟨?_, ?_⟩
    · rcases hab with hab | ⟨j, b, hb, hk, hcand, hd, hlt⟩
      · right
        refine ⟨0, a, List.getElem?_cons_zero, ?_, hcanda, ?_, ?_⟩
        · rw [hab]
          simp
        · rw [hab]
        · rw [hab]
          simpa using h4
      · right
        refine ⟨j + 1, b, by simpa using hb, ?_, hcand, hd, ?_⟩
        · rw [hk]
          congr 1
          omega
        · simp only at h4
          linarith
    · intro j b hb hcand
      cases j with
      | zero =>
        simp only [List.getElem?_cons_zero, Option.some.injEq] at hb
        subst hb
        exact findTargetAux_le sx sy aim rest (k0 + 1) (some k0) _
      | succ j =>
        simp only [List.getElem?_cons_succ] at hb
        exact hc j b hb hcand

theorem findTarget_some (sx sy aim : ℝ) (l : List Asteroid) (k : ℕ) (d : ℝ)
    (h : findTarget sx sy aim l = (some k, d)) :
    ∃ a : Asteroid, l[k]? = some a ∧ laserCandidate sx sy aim a ∧
      d = distance ⟨sx, sy⟩ ⟨a.x, a.y⟩ ∧ d < LASER_RANGE ∧
      ∀ (j : ℕ) (b : Asteroid), l[j]? = some b → laserCandidate sx sy aim b →
        d ≤ distance ⟨sx, sy⟩ ⟨b.x, b.y⟩ := by
  obtain ⟨hab, hc⟩ := findTargetAux_spec sx sy aim l 0 none LASER_RANGE
  unfold findTarget at h
  rcases hab with hab | ⟨j, b, hb, hk, hcand, hd, hlt⟩
  · rw [h] at hab
    simp at hab
  · rw [h] at hk hd hlt
    simp only [Option.some.injEq] at hk
    have hkj : k = j := by omega
    subst hkj
    refine ⟨b, hb, hcand, hd, ?_, ?_⟩
    · rw [h] at hc
      exact hlt
    · intro j2 b2 hb2 hcand2
      have := hc j2 b2 hb2 hcand2
      rw [h] at this
      exact this

theorem findTarget_none (sx sy aim : ℝ) (l : List Asteroid) (d : ℝ)
    (h : findTarget sx sy aim l = (none, d)) :
    ∀ (j : ℕ) (b : Asteroid), l[j]? = some b → laserCandidate sx sy aim b →
      ¬(distance ⟨sx, sy⟩ ⟨b.x, b.y⟩ < LASER_RANGE) := by
  obtain ⟨hab, hc⟩ := findTargetAux_spec sx sy aim l 0 none LASER_RANGE
  unfold findTarget at h
  rcases hab with hab | ⟨j, b, hb, hk, hcand, hd, hlt⟩
  · intro j b hb hcand
    have := hc j b hb hcand
    rw [hab] at this
    simp only at this
    exact not_lt.mpr this
  · rw [h] at hk
    simp at hk

theorem laserStep_target (i : Input) (u : Upgrades) (s : Ship)
    (l : List Asteroid) (g : Rng) (k : ℕ) (d : ℝ) (a : Asteroid)
    (hm : i.mouseDown = true)
    (hft : findTarget s.x s.y (atan2 i.aimDY i.aimDX) l = (some k, d))
    (ha : l[k]? = some a) :
    ∃ F : List Asteroid, (laserStep i u s l g).1 =
      ((l.set k { a with hp := a.hp - laserPowerFor u }) ++ F).filter
        (fun b => decide (b.hp > 0)) := by
  simp only [laserStep, hm, if_true, hft, ha]
  by_cases hc : a.hp > 0 ∧ a.hp - laserPowerFor u ≤ 0
  · rw [if_pos hc]
    exact ⟨_, rfl⟩
  · rw [if_neg hc]
    exact ⟨[], by rw [List.append_nil]⟩

theorem laserStep_no_target (i : Input) (u : Upgrades) (s : Ship)
    (l : List Asteroid) (g : Rng) (d : ℝ) (hm : i.mouseDown = true)
    (hft : findTarget s.x s.y (atan2 i.aimDY i.aimDX) l = (none, d)) :
    laserStep i u s l g = (l.filter (fun b => decide (b.hp > 0)), g, []) := by
  simp only [laserStep, hm, if_true, hft]

/-- C5 (amended): when the trigger is held, at most one asteroid is damaged
per frame — the fold selects an index whose asteroid passes the claim's
eligibility/range/cone filter, has distance to the ship strictly below
LASER_RANGE (the nearest-selection starts at LASER_RANGE, so the claim's
"within laser range + asteroid radius" filter is effectively capped at the
bare laser range), and is nearest among all candidates; only that asteroid
has the laser power subtracted (everything else is at most purged by the
dead filter), and when no candidate lies strictly within LASER_RANGE
nothing is damaged. -/
theorem c5_laser_single_nearest_target :
    (∀ (sx sy aim : ℝ) (l : List Asteroid) (k : ℕ) (d : ℝ),
      findTarget sx sy aim l = (some k, d) →
      ∃ a : Asteroid, l[k]? = some a ∧ laserCandidate sx sy aim a ∧
        d = distance ⟨sx, sy⟩ ⟨a.x, a.y⟩ ∧ d < LASER_RANGE ∧
        ∀ (j : ℕ) (b : Asteroid), l[j]? = some b → laserCandidate sx sy aim b →
          d ≤ distance ⟨sx, sy⟩ ⟨b.x, b.y⟩) ∧
    (∀ (sx sy aim : ℝ) (l : List Asteroid) (d : ℝ),
      findTarget sx sy aim l = (none, d) →
      ∀ (j : ℕ) (b : Asteroid), l[j]? = some b → laserCandidate sx sy aim b →
        ¬(distance ⟨sx, sy⟩ ⟨b.x, b.y⟩ < LASER_RANGE)) ∧
    (∀ (i : Input) (u : Upgrades) (s : Ship) (l : List Asteroid) (g : Rng)
        (k : ℕ) (d : ℝ) (a : Asteroid), i.mouseDown = true →
      findTarget s.x s.y (atan2 i.aimDY i.aimDX) l = (some k, d) →
      l[k]? = some a →
      ∃ F : List Asteroid, (laserStep i u s l g).1 =
        ((l.set k { a with hp := a.hp - laserPowerFor u }) ++ F).filter
          (fun b => decide (b.hp > 0))) ∧
    (∀ (i : Input) (u : Upgrades) (s : Ship) (l : List Asteroid) (g : Rng)
        (d : ℝ), i.mouseDown = true →
      findTarget s.x s.y (atan2 i.aimDY i.aimDX) l = (none, d) →
      laserStep i u s l g = (l.filter (fun b => decide (b.hp > 0)), g, [])) :=
  ⟨findTarget_some, findTarget_none, laserStep_target, laserStep_no_target⟩

/-! ## C5 counterexample: range + radius filter is capped by the
nearest-selection initial distance -/

theorem wrapAngle_zero : wrapAngle 0 = 0 := by
  unfold wrapAngle
  rw [if_neg (not_lt.mpr Real.pi_nonneg),
    if_neg (not_lt.mpr (neg_nonpos.mpr Real.pi_nonneg))]

/-- A CHUNK at distance 260: inside laser range + its radius (275), outside
the bare laser range (250). -/
def farChunk : Asteroid :=
  { x := 260, y := 0, vx := 0, vy := 0, radius := CHUNK_RADIUS, angle := 0,
    rotationSpeed := 0, tier := Tier.CHUNK, hp := 50, shape := [] }

/-- Trigger held, aiming along the positive x axis. -/
def laserInput : Input :=
  { thrustKey := false, reverseKey := false, brakeKey := false,
    leftKey := false, rightKey := false, mouseDown := true, rightDown := false,
    aimDX := 1, aimDY := 0 }

/-- A ship at the origin of the aim frame. -/
def originShip : Ship :=
  { x := 0, y := 0, vx := 0, vy := 0, angle := 0, radius := SHIP_RADIUS,
    hull := 100, maxHull := 100, shield := 0, maxShield := 0,
    cargo := 0, maxCargo := 20, ammo := 3, invulnerableTimer := 0 }

theorem findTarget_farChunk :
    findTarget originShip.x originShip.y 0 [farChunk] = (none, LASER_RANGE) := by
  have hd : distance ⟨originShip.x, originShip.y⟩ ⟨farChunk.x, farChunk.y⟩ =
      260 := by
    simp only [originShip, farChunk]
    rw [distance_x_axis (by norm_num)]
    norm_num
  have hang : atan2 (farChunk.y - originShip.y) (farChunk.x - originShip.x) =
      0 := by
    simp only [originShip, farChunk]
    rw [show (0 : ℝ) - 0 = 0 by norm_num]
    exact atan2_zero_nonneg (by norm_num)
  simp only [findTarget, findTargetAux]
  rw [if_neg (by simp [farChunk]), hd,
    if_pos (by unfold LASER_RANGE; simp only [farChunk]; unfold CHUNK_RADIUS; norm_num),
    hang, show (0 : ℝ) - 0 = 0 by norm_num, wrapAngle_zero,
    if_pos (by norm_num), if_neg (by unfold LASER_RANGE; norm_num)]

/-- C5 counterexample: a lone CHUNK at distance 260 satisfies the claim's
candidate filter (tier eligible, 260 < laser range 250 + radius 25, dead-on
bearing) and is trivially the nearest such candidate, yet the frame with
the trigger held damages nothing: the laser section returns the asteroid
list unchanged (hit points still 50). -/
theorem c5_range_plus_radius_candidate_not_damaged :
    laserCandidate originShip.x originShip.y
      (atan2 laserInput.aimDY laserInput.aimDX) farChunk ∧
    laserInput.mouseDown = true ∧
    laserStep laserInput startUpgrades originShip [farChunk] anyRng =
      ([farChunk], anyRng, []) := by
  have haim : atan2 laserInput.aimDY laserInput.aimDX = 0 := by
    simp only [laserInput]
    exact atan2_zero_nonneg (by norm_num)
  have hd : distance ⟨originShip.x, originShip.y⟩ ⟨farChunk.x, farChunk.y⟩ =
      260 := by
    simp only [originShip, farChunk]
    rw [distance_x_axis (by norm_num)]
    norm_num
  have hang : atan2 (farChunk.y - originShip.y) (farChunk.x - originShip.x) =
      0 := by
    simp only [originShip, farChunk]
    rw [show (0 : ℝ) - 0 = 0 by norm_num]
    exact atan2_zero_nonneg (by norm_num)
  refine ⟨⟨by simp [farChunk], ?_, ?_⟩, rfl, ?_⟩
  · rw [hd]
    unfold LASER_RANGE
    simp only [farChunk]
    unfold CHUNK_RADIUS
    norm_num
  · rw [haim, hang, show (0 : ℝ) - 0 = 0 by norm_num, wrapAngle_zero]
    norm_num
  · have hft : findTarget originShip.x originShip.y
        (atan2 laserInput.aimDY laserInput.aimDX) [farChunk] =
        (none, LASER_RANGE) := by
      rw [haim]
      exact findTarget_farChunk
    rw [laserStep_no_target _ _ _ _ _ _ rfl hft,
      filter_hp_cons _ _ (by norm_num [farChunk]), filter_hp_nil]

/-! ## C2: the sector-cleared callback fires at most once -/

/-- Whether an event is the sector-cleared callback. -/
def Event.isSectorCleared : Event → Bool
  | Event.sectorCleared _ _ => true
  | _ => false

/-- The sector-cleared events among a tick's emissions. -/
def scEvents (evs : List Event) : List Event :=
  evs.filter Event.isSectorCleared

theorem scEvents_append (a b : List Event) :
    scEvents (a ++ b) = scEvents a ++ scEvents b := by
  simp [scEvents]

theorem breakAsteroid_tame (a : Asteroid) (vx vy : ℝ) (g : Rng) :
    ∀ e ∈ (breakAsteroid a vx vy g).2.2, e.isSectorCleared = false := by
  intro e he
  simp only [breakAsteroid] at he
  split_ifs at he
  · have h2 : e = Event.explosionLarge := by simpa using he
    subst h2
    rfl
  · have h2 : e = Event.explosionLarge := by simpa using he
    subst h2
    rfl
  · have h2 : e = Event.explosionSmall := by simpa using he
    subst h2
    rfl
  · simp at he

theorem detonateList_tame (m : Mine) (l : List Asteroid) (g : Rng) :
    ∀ e ∈ (detonateList m l g).2.2.2, e.isSectorCleared = false := by
  induction l generalizing g with
  | nil => intro e he; simp [detonateList] at he
  | cons a rest ih =>
    intro e he
    simp only [detonateList] at he
    rcases List.mem_append.mp he with he | he
    · by_cases hc : distance ⟨m.x, m.y⟩ ⟨a.x, a.y⟩ < MINE_BLAST_RADIUS ∧
          a.hp > 0 ∧ (blastAst m a).hp ≤ 0
      · rw [if_pos hc] at he
        exact breakAsteroid_tame _ _ _ _ e he
      · rw [if_neg hc] at he
        simp at he
    · exact ih _ e he

theorem stepMine_tame (m : Mine) (s : Ship) (l : List Asteroid) (g : Rng) :
    ∀ e ∈ (stepMine m s l g).2.2.2.2, e.isSectorCleared = false := by
  have hcue : ∀ e2 ∈ (if m.timer - 1 = MINE_PUCKER_DURATION
      then [Event.minePucker] else ([] : List Event)),
      e2.isSectorCleared = false := by
    intro e2 he2
    by_cases h2 : m.timer - 1 = MINE_PUCKER_DURATION
    · rw [if_pos h2] at he2
      have h3 : e2 = Event.minePucker := by simpa using he2
      subst h3
      rfl
    · rw [if_neg h2] at he2
      simp at he2
  intro e he
  simp only [stepMine] at he
  by_cases h1 : 0 < m.timer - 1 ∧ m.timer - 1 < MINE_PUCKER_DURATION
  · rw [if_pos h1] at he
    exact hcue e he
  · rw [if_neg h1] at he
    by_cases h3 : m.timer - 1 ≤ 0
    · rw [if_pos h3] at he
      rcases List.mem_append.mp he with hc | he4
      · rcases List.mem_append.mp hc with hcu | he3
        · exact hcue e hcu
        · have h4 : e = Event.explosionLarge := by simpa using he3
          subst h4
          rfl
      · exact detonateList_tame _ _ _ e he4
    · rw [if_neg h3] at he
      exact hcue e he

theorem minesStepList_tame (ms : List Mine) (s : Ship) (l : List Asteroid)
    (g : Rng) : ∀ e ∈ (minesStepList ms s l g).2.2.2.2,
      e.isSectorCleared = false := by
  induction ms generalizing s l g with
  | nil => intro e he; simp [minesStepList] at he
  | cons m rest ih =>
    intro e he
    simp only [minesStepList] at he
    rcases List.mem_append.mp he with he | he
    · exact stepMine_tame _ _ _ _ e he
    · exact ih _ _ _ e he

theorem shipCollide_tame (s : Ship) (a : Asteroid) (o : ℤ) :
    ∀ e ∈ (shipCollide s a o).2.2.2, e.isSectorCleared = false := by
  intro e he
  simp only [shipCollide] at he
  split_ifs at he <;>
    first
      | (have h2 : e = Event.pickup := by simpa using he
         subst h2
         rfl)
      | (have h2 : e = Event.explosionSmall := by simpa using he
         subst h2
         rfl)
      | simp at he

theorem asteroidsStep_tame (l : List Asteroid) (s : Ship) (t : ℕ) (o : ℤ) :
    ∀ e ∈ (asteroidsStep l s t o).2.2.2.2, e.isSectorCleared = false := by
  induction l generalizing s t o with
  | nil => intro e he; simp [asteroidsStep] at he
  | cons a rest ih =>
    intro e he
    simp only [asteroidsStep] at he
    rcases List.mem_append.mp he with he | he
    · exact shipCollide_tame _ _ _ e he
    · exact ih _ _ _ e he

theorem laserStep_tame (i : Input) (u : Upgrades) (s : Ship)
    (l : List Asteroid) (g : Rng) :
    ∀ e ∈ (laserStep i u s l g).2.2, e.isSectorCleared = false := by
  intro e he
  simp only [laserStep] at he
  split_ifs at he
  · split at he
    · split at he
      · split_ifs at he
        · exact breakAsteroid_tame _ _ _ _ e he
        · simp at he
      · simp at he
    · simp at he
  · simp at he

theorem tame_scEvents_nil {evs : List Event}
    (h : ∀ e ∈ evs, e.isSectorCleared = false) : scEvents evs = [] := by
  unfold scEvents
  rw [List.filter_eq_nil_iff]
  intro e he
  rw [h e he]
  simp

theorem dockCheck_tame (w : World) : scEvents (dockCheck w).2 = [] := by
  simp only [dockCheck]
  split_ifs <;> rfl

theorem endStep_tame (w : World) : scEvents (endStep w).2 = [] := by
  simp only [endStep]
  split_ifs <;> rfl

theorem dockCheck_phase (w : World) :
    (dockCheck w).1.phase = w.phase ∨ (dockCheck w).1.phase = GamePhase.DOCKED := by
  simp only [dockCheck]
  split_ifs <;> simp

theorem endStep_phase (w : World) :
    (endStep w).1.phase = w.phase ∨ (endStep w).1.phase = GamePhase.GAME_OVER := by
  simp only [endStep]
  split_ifs <;> simp

theorem sectorCheck_fire (w : World) (t : ℕ) :
    scEvents (sectorCheck w t).2 =
      (if 0 < w.levelInitialAsteroids ∧
          (t : ℝ) ≤ w.levelInitialAsteroids * 0.1 ∧ w.sector = w.prevSector
       then [Event.sectorCleared (sectorPercent w.levelInitialAsteroids t)
              w.sectorOreCollected]
       else []) ∧
    (scEvents (sectorCheck w t).2 ≠ [] →
      (sectorCheck w t).1.phase = GamePhase.SECTOR_CLEARED) := by
  unfold sectorCheck
  by_cases h1 : 0 < w.levelInitialAsteroids ∧
      (t : ℝ) ≤ w.levelInitialAsteroids * 0.1
  · rw [if_pos h1]
    by_cases h2 : w.sector = w.prevSector
    · rw [if_pos h2, if_pos ⟨h1.1, h1.2, h2⟩]
      exact ⟨rfl, fun _ => rfl⟩
    · rw [if_neg h2, if_neg (by tauto)]
      exact ⟨rfl, fun h => absurd rfl h⟩
  · rw [if_neg h1, if_neg (by tauto)]
    exact ⟨rfl, fun h => absurd rfl h⟩

/-- The sector-cleared events of one PLAYING tick: fired exactly on the
qualifying condition, with the percent/ore payload. -/
theorem update_scEvents (i : Input) (w : World)
    (hp : w.phase = GamePhase.PLAYING) :
    scEvents (update i w).2 =
      if 0 < w.levelInitialAsteroids ∧
          ((titansLeftOf i w : ℝ)) ≤ w.levelInitialAsteroids * 0.1 ∧
          w.sector = w.prevSector
      then [Event.sectorCleared
             (sectorPercent w.levelInitialAsteroids (titansLeftOf i w))
             (midAsteroids i w).2.2.2.1]
      else [] := by
  have hL : scEvents (midLaser i w).2.2 = [] :=
    tame_scEvents_nil (laserStep_tame i w.upgrades (midShip i w) w.asteroids w.rng)
  have hM : scEvents (midMines i w).2.2.2.2 = [] :=
    tame_scEvents_nil (minesStepList_tame w.mines (midShip i w)
      (midTractor i w).1 (midTractor i w).2)
  have hA : scEvents (midAsteroids i w).2.2.2.2 = [] :=
    tame_scEvents_nil (asteroidsStep_tame (midSurvivors i w) (midMines i w).2.1 0
      w.sectorOreCollected)
  rw [update_eq i w hp]
  rw [scEvents_append, scEvents_append, scEvents_append, scEvents_append,
    scEvents_append, hL, hM, hA, dockCheck_tame, endStep_tame]
  simp only [List.nil_append, List.append_nil]
  exact (sectorCheck_fire (midWorld i w) (titansLeftOf i w)).1

/-- A PLAYING tick that fires the callback ends in a non-PLAYING phase. -/
theorem update_fired_phase (i : Input) (w : World)
    (hp : w.phase = GamePhase.PLAYING)
    (hf : scEvents (update i w).2 ≠ []) :
    (update i w).1.phase ≠ GamePhase.PLAYING := by
  have hsc := update_scEvents i w hp
  rw [hsc] at hf
  split_ifs at hf with hcond
  · have h1 : 0 < (midWorld i w).levelInitialAsteroids ∧
        ((titansLeftOf i w : ℝ)) ≤ (midWorld i w).levelInitialAsteroids * 0.1 :=
      ⟨hcond.1, hcond.2.1⟩
    have h2 : (midWorld i w).sector = (midWorld i w).prevSector := hcond.2.2
    have hsec : (sectorCheck (midWorld i w) (titansLeftOf i w)).1.phase =
        GamePhase.SECTOR_CLEARED := by
      unfold sectorCheck
      rw [if_pos h1, if_pos h2]
    rw [update_eq i w hp]
    rcases endStep_phase (dockCheck (sectorCheck (midWorld i w)
        (titansLeftOf i w)).1).1 with he | he <;> rw [he]
    · rcases dockCheck_phase (sectorCheck (midWorld i w)
          (titansLeftOf i w)).1 with hd | hd <;> rw [hd]
      · rw [hsec]
        simp
      · simp
    · simp
  · exact absurd rfl hf

theorem run_not_playing (inputs : List Input) (w : World)
    (h : w.phase ≠ GamePhase.PLAYING) : run inputs w = (w, []) := by
  induction inputs with
  | nil => rfl
  | cons i rest ih =>
    simp only [run, update_not_playing i w h]
    rw [ih]
    rfl

theorem run_sc_once (inputs : List Input) :
    ∀ w : World, (scEvents (run inputs w).2).length ≤ 1 := by
  induction inputs with
  | nil =>
    intro w
    simp [run, scEvents]
  | cons i rest ih =>
    intro w
    simp only [run]
    rw [scEvents_append, List.length_append]
    by_cases hp : w.phase = GamePhase.PLAYING
    · by_cases hf : scEvents (update i w).2 = []
      · rw [hf]
        simpa using ih (update i w).1
      · rw [run_not_playing rest (update i w).1 (update_fired_phase i w hp hf)]
        have h1 : (scEvents (update i w).2).length ≤ 1 := by
          rw [update_scEvents i w hp]
          split_ifs <;> simp
        simpa [scEvents] using h1
    · rw [update_not_playing i w hp]
      simpa [scEvents] using ih w

/-- C2: the sector-cleared callback fires at most once along any run of
consecutive ticks: a non-PLAYING tick is a no-op; a PLAYING tick fires
exactly when the tracked initial count is positive, the surviving
TITAN/VOLATILE population is at or below 10 percent of it, and the sector
index has not already advanced — carrying the percent-destroyed and
ore-collected payload; a tick that fires ends in a non-PLAYING phase, so the
condition continuing to hold on later ticks cannot fire again. -/
theorem c2_sector_cleared_exactly_once :
    (∀ (i : Input) (w : World), w.phase ≠ GamePhase.PLAYING →
      update i w = (w, [])) ∧
    (∀ (i : Input) (w : World), w.phase = GamePhase.PLAYING →
      scEvents (update i w).2 =
        if 0 < w.levelInitialAsteroids ∧
            ((titansLeftOf i w : ℝ)) ≤ w.levelInitialAsteroids * 0.1 ∧
            w.sector = w.prevSector
        then [Event.sectorCleared
               (sectorPercent w.levelInitialAsteroids (titansLeftOf i w))
               (midAsteroids i w).2.2.2.1]
        else []) ∧
    (∀ (i : Input) (w : World), w.phase = GamePhase.PLAYING →
      scEvents (update i w).2 ≠ [] →
      (update i w).1.phase ≠ GamePhase.PLAYING) ∧
    (∀ (inputs : List Input) (w : World),
      (scEvents (run inputs w).2).length ≤ 1) :=
  ⟨update_not_playing, update_scEvents, update_fired_phase,
    fun inputs w => run_sc_once inputs w⟩

/-! ## C7: the mine pucker/detonation timeline -/

/-- A mine at the station origin with the given countdown and state. -/
def mineAt (t : ℤ) (st : MineState) : Mine :=
  { x := 0, y := 0, timer := t, state := st }

/-- A stationary full-hull ship far outside every mine radius (and outside
the docking radius), so the countdown runs with no interference. -/
def mineShip : Ship :=
  { x := 10000, y := 0, vx := 0, vy := 0, angle := 0, radius := SHIP_RADIUS,
    hull := 100, maxHull := 100, shield := 0, maxShield := 0,
    cargo := 0, maxCargo := 20, ammo := 3, invulnerableTimer := 0 }

/-- A PLAYING world holding only the far-away ship and one origin mine. -/
def mkMineWorld (t : ℤ) (st : MineState) : World :=
  { phase := GamePhase.PLAYING, ship := mineShip, upgrades := startUpgrades,
    asteroids := [], mines := [mineAt t st], sector := 1, prevSector := 1,
    levelInitialAsteroids := 0, sectorOreCollected := 0, rng := anyRng }

/-- mkMineWorld after its mine has detonated and been purged. -/
def clearedMineWorld : World :=
  { phase := GamePhase.PLAYING, ship := mineShip, upgrades := startUpgrades,
    asteroids := [], mines := [], sector := 1, prevSector := 1,
    levelInitialAsteroids := 0, sectorOreCollected := 0, rng := anyRng }

theorem mineShip_dist : distance ⟨(0 : ℝ), 0⟩ ⟨mineShip.x, mineShip.y⟩ = 10000 := by
  show distance ⟨(0 : ℝ), 0⟩ ⟨(10000 : ℝ), (0 : ℝ)⟩ = 10000
  rw [distance_x_axis (by norm_num)]
  norm_num

theorem mineShip_far_pucker :
    ¬(distance ⟨(0 : ℝ), 0⟩ ⟨mineShip.x, mineShip.y⟩ < MINE_BLAST_RADIUS * 1.5) := by
  rw [mineShip_dist]
  norm_num [MINE_BLAST_RADIUS]

theorem mineShip_far_blast :
    ¬(distance ⟨(0 : ℝ), 0⟩ ⟨mineShip.x, mineShip.y⟩ < MINE_BLAST_RADIUS) := by
  rw [mineShip_dist]
  norm_num [MINE_BLAST_RADIUS]

theorem sectorCheck_quiet (w : World) (t : ℕ)
    (h : ¬(0 < w.levelInitialAsteroids ∧
      (t : ℝ) ≤ w.levelInitialAsteroids * 0.1)) :
    sectorCheck w t = (w, []) := by
  unfold sectorCheck
  rw [if_neg h]

theorem dockCheck_away (w : World)
    (h : ¬(distance ⟨0, 0⟩ ⟨w.ship.x, w.ship.y⟩ < STATION_RADIUS + SHIP_RADIUS ∧
      |w.ship.vx| < 1 ∧ |w.ship.vy| < 1)) :
    dockCheck w = (w, []) := by
  unfold dockCheck
  rw [if_neg h]

theorem endStep_calm (w : World) (hi : ¬(w.ship.invulnerableTimer > 0))
    (hh : ¬(w.ship.hull ≤ 0)) : endStep w = (w, []) := by
  simp only [endStep]
  rw [if_neg hi, if_neg hh]

theorem stepMine_armed_eval (t : ℤ) (st : MineState) (s : Ship) (g : Rng)
    (h1 : ¬((0 : ℤ) < t - 1 ∧ t - 1 < MINE_PUCKER_DURATION))
    (h2 : ¬(t - 1 ≤ (0 : ℤ))) :
    stepMine (mineAt t st) s [] g =
      (mineAt (t - 1) st, s, [], g,
       if t - 1 = MINE_PUCKER_DURATION then [Event.minePucker] else []) := by
  simp only [stepMine, mineAt]
  rw [if_neg h1, if_neg h2]

theorem stepMine_pucker_eval (t : ℤ) (st : MineState) (s : Ship) (g : Rng)
    (h1 : (0 : ℤ) < t - 1 ∧ t - 1 < MINE_PUCKER_DURATION)
    (hfar : ¬(distance ⟨(0 : ℝ), 0⟩ ⟨s.x, s.y⟩ < MINE_BLAST_RADIUS * 1.5)) :
    stepMine (mineAt t st) s [] g =
      (mineAt (t - 1) MineState.PUCKER, s, [], g,
       if t - 1 = MINE_PUCKER_DURATION then [Event.minePucker] else []) := by
  simp only [stepMine, mineAt]
  rw [if_pos h1]
  simp only [puckerPullShip, List.map_nil]
  rw [if_neg hfar]

theorem stepMine_det_eval (t : ℤ) (st : MineState) (s : Ship) (g : Rng)
    (h2 : t - 1 ≤ (0 : ℤ))
    (hfar : ¬(distance ⟨(0 : ℝ), 0⟩ ⟨s.x, s.y⟩ < MINE_BLAST_RADIUS)) :
    stepMine (mineAt t st) s [] g =
      (mineAt (t - 1) MineState.DETONATING, s, [], g,
       (if t - 1 = MINE_PUCKER_DURATION then [Event.minePucker] else []) ++
         [Event.explosionLarge]) := by
  simp only [stepMine, mineAt]
  rw [if_neg (fun hc => absurd hc.1 (by omega)), if_pos h2]
  simp only [detonateList, blastShip]
  rw [if_neg hfar]
  simp only [List.append_nil, List.nil_append]

theorem minesStepList_one (m : Mine) (s : Ship) (g : Rng)
    (m2 : Mine) (s2 : Ship) (ev : List Event)
    (hm : stepMine m s [] g = (m2, s2, [], g, ev)) :
    minesStepList [m] s [] g = ([m2], s2, [], g, ev) := by
  simp only [minesStepList, hm, List.append_nil]

theorem update_mkMineWorld (t : ℤ) (st : MineState) (m2 : Mine) (ev : List Event)
    (hm : minesStepList [mineAt t st] mineShip [] anyRng =
      ([m2], mineShip, [], anyRng, ev)) :
    update quietInput (mkMineWorld t st) =
      ({ mkMineWorld t st with
          mines := if m2.state = MineState.DETONATING then [] else [m2] }, ev) := by
  have hp : (mkMineWorld t st).phase = GamePhase.PLAYING := rfl
  have hship : midShip quietInput (mkMineWorld t st) = mineShip :=
    controlStep_still _ _ _ rfl rfl rfl rfl rfl rfl rfl
  have hlaser : midLaser quietInput (mkMineWorld t st) = ([], anyRng, []) := by
    unfold midLaser
    rw [laserStep_off _ _ _ _ _ rfl]
    rfl
  have htr : midTractor quietInput (mkMineWorld t st) = ([], anyRng) := by
    unfold midTractor
    rw [hlaser, tractorStep_off _ _ _ _ rfl]
  have hmines : midMines quietInput (mkMineWorld t st) =
      ([m2], mineShip, [], anyRng, ev) := by
    unfold midMines
    rw [htr, hship]
    exact hm
  have hsurv : midSurvivors quietInput (mkMineWorld t st) = [] := by
    unfold midSurvivors
    rw [hmines]
    rfl
  have hA : midAsteroids quietInput (mkMineWorld t st) =
      ([], mineShip, 0, 0, []) := by
    unfold midAsteroids
    rw [hsurv, hmines]
    rfl
  have ht : titansLeftOf quietInput (mkMineWorld t st) = 0 := by
    unfold titansLeftOf
    rw [hA]
  have hfilter : ([m2] : List Mine).filter
      (fun m => decide (m.state ≠ MineState.DETONATING)) =
      if m2.state = MineState.DETONATING then [] else [m2] := by
    by_cases h : m2.state = MineState.DETONATING
    · simp [List.filter, h]
    · simp [List.filter, h]
  have hw1 : midWorld quietInput (mkMineWorld t st) =
      { mkMineWorld t st with
          mines := if m2.state = MineState.DETONATING then [] else [m2] } := by
    unfold midWorld
    rw [hmines, hA]
    simp only [hfilter]
    rfl
  have hdock : ¬(distance ⟨0, 0⟩
      ⟨({ mkMineWorld t st with
          mines := if m2.state = MineState.DETONATING
            then [] else [m2] } : World).ship.x,
        ({ mkMineWorld t st with
          mines := if m2.state = MineState.DETONATING
            then [] else [m2] } : World).ship.y⟩ <
        STATION_RADIUS + SHIP_RADIUS ∧
      |({ mkMineWorld t st with
          mines := if m2.state = MineState.DETONATING
            then [] else [m2] } : World).ship.vx| < 1 ∧
      |({ mkMineWorld t st with
          mines := if m2.state = MineState.DETONATING
            then [] else [m2] } : World).ship.vy| < 1) := by
    intro hcon
    have hd := hcon.1
    rw [show ({ mkMineWorld t st with
          mines := if m2.state = MineState.DETONATING
            then [] else [m2] } : World).ship = mineShip from rfl,
        mineShip_dist] at hd
    norm_num [STATION_RADIUS, SHIP_RADIUS] at hd
  rw [update_eq _ _ hp, hw1, ht, hlaser, hmines, hA,
      sectorCheck_quiet _ _ (by norm_num [mkMineWorld]),
      dockCheck_away _ hdock,
      endStep_calm _ (by norm_num [mkMineWorld, mineShip])
        (by norm_num [mkMineWorld, mineShip])]
  simp only [List.append_nil, List.nil_append]

theorem tick_mine_armed (t : ℤ) (st : MineState) (h2 : 60 < t - 1)
    (hst : st ≠ MineState.DETONATING) :
    update quietInput (mkMineWorld t st) = (mkMineWorld (t - 1) st, []) := by
  have hsm := stepMine_armed_eval t st mineShip anyRng
    (by simp only [MINE_PUCKER_DURATION]; omega) (by omega)
  rw [if_neg (by simp only [MINE_PUCKER_DURATION]; omega)] at hsm
  have hu := update_mkMineWorld t st (mineAt (t - 1) st) []
    (minesStepList_one _ _ _ _ _ _ hsm)
  rw [if_neg (by simpa [mineAt] using hst)] at hu
  exact hu

theorem tick_mine_cue (st : MineState) (hst : st ≠ MineState.DETONATING) :
    update quietInput (mkMineWorld 61 st) =
      (mkMineWorld 60 st, [Event.minePucker]) := by
  have hsm := stepMine_armed_eval 61 st mineShip anyRng
    (by simp only [MINE_PUCKER_DURATION]; omega) (by omega)
  rw [if_pos (by simp only [MINE_PUCKER_DURATION]; omega)] at hsm
  have hu := update_mkMineWorld 61 st (mineAt ((61 : ℤ) - 1) st) [Event.minePucker]
    (minesStepList_one _ _ _ _ _ _ hsm)
  rw [if_neg (by simpa [mineAt] using hst),
      show (61 : ℤ) - 1 = 60 from by norm_num] at hu
  exact hu

theorem tick_mine_pucker (t : ℤ) (h1 : (0 : ℤ) < t - 1) (h2 : t - 1 < 60)
    (st : MineState) :
    update quietInput (mkMineWorld t st) =
      (mkMineWorld (t - 1) MineState.PUCKER, []) := by
  have hsm := stepMine_pucker_eval t st mineShip anyRng
    ⟨h1, by simp only [MINE_PUCKER_DURATION]; omega⟩ mineShip_far_pucker
  rw [if_neg (by simp only [MINE_PUCKER_DURATION]; omega)] at hsm
  have hu := update_mkMineWorld t st (mineAt (t - 1) MineState.PUCKER) []
    (minesStepList_one _ _ _ _ _ _ hsm)
  rw [if_neg (by simp [mineAt])] at hu
  exact hu

theorem tick_mine_det (t : ℤ) (h0 : t - 1 ≤ (0 : ℤ)) (st : MineState) :
    update quietInput (mkMineWorld t st) =
      (clearedMineWorld, [Event.explosionLarge]) := by
  have hsm := stepMine_det_eval t st mineShip anyRng h0 mineShip_far_blast
  rw [if_neg (by simp only [MINE_PUCKER_DURATION]; omega), List.nil_append] at hsm
  have hu := update_mkMineWorld t st (mineAt (t - 1) MineState.DETONATING)
    [Event.explosionLarge] (minesStepList_one _ _ _ _ _ _ hsm)
  rw [if_pos (by simp [mineAt])] at hu
  exact hu

theorem run_cons (i : Input) (inputs : List Input) (w : World) :
    run (i :: inputs) w =
      ((run inputs (update i w).1).1,
       (update i w).2 ++ (run inputs (update i w).1).2) := rfl

theorem run_cons_eq {i : Input} {inputs : List Input} {w w1 : World}
    {e1 : List Event} (hu : update i w = (w1, e1)) :
    run (i :: inputs) w = ((run inputs w1).1, e1 ++ (run inputs w1).2) := by
  rw [run_cons, hu]

theorem run_one (i : Input) (w : World) : run [i] w = update i w := by
  simp only [run, List.append_nil]

theorem run_append (xs ys : List Input) (w : World) :
    run (xs ++ ys) w =
      ((run ys (run xs w).1).1, (run xs w).2 ++ (run ys (run xs w).1).2) := by
  induction xs generalizing w with
  | nil => simp [run]
  | cons i rest ih =>
    rw [List.cons_append, run_cons, run_cons, ih]
    simp [List.append_assoc]

theorem run_snoc (xs : List Input) (i : Input) (w : World) :
    run (xs ++ [i]) w =
      ((update i (run xs w).1).1, (run xs w).2 ++ (update i (run xs w).1).2) := by
  rw [run_append, run_one]

theorem run_mine_armed (k : ℕ) : ∀ (t : ℤ) (st : MineState),
    st ≠ MineState.DETONATING → 60 < t - k →
    run (List.replicate k quietInput) (mkMineWorld t st) =
      (mkMineWorld (t - k) st, []) := by
  induction k with
  | zero =>
    intro t st _ _
    rw [Nat.cast_zero, sub_zero]
    rfl
  | succ k ih =>
    intro t st hst hk
    push_cast at hk
    rw [List.replicate_succ, run_cons_eq (tick_mine_armed t st (by omega) hst),
        ih (t - 1) st hst (by omega)]
    push_cast
    rw [show t - 1 - (k : ℤ) = t - ((k : ℤ) + 1) from by ring]
    rfl

theorem run_mine_pucker (k : ℕ) : ∀ (t : ℤ) (st : MineState),
    (0 : ℤ) < t - 1 - k → t - 1 < 60 →
    run (List.replicate (k + 1) quietInput) (mkMineWorld t st) =
      (mkMineWorld (t - 1 - k) MineState.PUCKER, []) := by
  induction k with
  | zero =>
    intro t st h1 h2
    rw [Nat.cast_zero, sub_zero] at h1 ⊢
    rw [List.replicate_succ, List.replicate_zero,
        run_cons_eq (tick_mine_pucker t h1 h2 st)]
    rfl
  | succ k ih =>
    intro t st h1 h2
    push_cast at h1
    rw [List.replicate_succ, run_cons_eq (tick_mine_pucker t (by omega) h2 st),
        ih (t - 1) MineState.PUCKER (by push_cast; omega) (by omega)]
    push_cast
    rw [show t - 1 - 1 - (k : ℤ) = t - 1 - ((k : ℤ) + 1) from by ring]
    rfl

theorem run_mine_120 :
    run (List.replicate 120 quietInput) (mkMineWorld 180 MineState.ARMED) =
      (mkMineWorld 60 MineState.ARMED, [Event.minePucker]) := by
  have h119 : run (List.replicate 119 quietInput)
      (mkMineWorld 180 MineState.ARMED) = (mkMineWorld 61 MineState.ARMED, []) := by
    have h := run_mine_armed 119 180 MineState.ARMED (by decide) (by norm_num)
    rw [show (180 : ℤ) - ((119 : ℕ) : ℤ) = 61 from by norm_num] at h
    exact h
  have hcue := tick_mine_cue MineState.ARMED (by decide)
  rw [show (120 : ℕ) = 119 + 1 from by norm_num, List.replicate_succ',
      run_snoc, h119]
  simp only [hcue, List.nil_append]

theorem run_mine_121 :
    run (List.replicate 121 quietInput) (mkMineWorld 180 MineState.ARMED) =
      (mkMineWorld 59 MineState.PUCKER, [Event.minePucker]) := by
  have hp := tick_mine_pucker 60 (by norm_num) (by norm_num) MineState.ARMED
  rw [show (60 : ℤ) - 1 = 59 from by norm_num] at hp
  rw [show (121 : ℕ) = 120 + 1 from by norm_num, List.replicate_succ',
      run_snoc, run_mine_120]
  simp only [hp, List.append_nil]

theorem run_mine_179 :
    run (List.replicate 179 quietInput) (mkMineWorld 180 MineState.ARMED) =
      (mkMineWorld 1 MineState.PUCKER, [Event.minePucker]) := by
  have hp := run_mine_pucker 58 60 MineState.ARMED (by norm_num) (by norm_num)
  rw [show (60 : ℤ) - 1 - ((58 : ℕ) : ℤ) = 1 from by norm_num,
      show (58 : ℕ) + 1 = 59 from by norm_num] at hp
  rw [show (179 : ℕ) = 120 + 59 from by norm_num, List.replicate_add,
      run_append, run_mine_120]
  simp only [hp, List.append_nil]

theorem run_mine_180 :
    run (List.replicate 180 quietInput) (mkMineWorld 180 MineState.ARMED) =
      (clearedMineWorld, [Event.minePucker, Event.explosionLarge]) := by
  have hd := tick_mine_det 1 (by norm_num) MineState.PUCKER
  rw [show (180 : ℕ) = 179 + 1 from by norm_num, List.replicate_succ',
      run_snoc, run_mine_179]
  simp only [hd, List.singleton_append]

/-- C7 counterexample: a mine dropped with timer 180 into an otherwise empty
PLAYING world, run for exactly 120 quiet ticks — the tick on which the
countdown reaches the 60-frame pucker window.  The pucker cue has fired (it
is the run's one event), but the surviving mine's state is still ARMED, not
PUCKER: the source's window test (0 < timer < 60) is strict, so the state
switch happens only on the following tick. -/
theorem c7_pucker_entry_lags_cue :
    (mkMineWorld 180 MineState.ARMED).mines = [mineAt 180 MineState.ARMED] ∧
    (run (List.replicate 120 quietInput) (mkMineWorld 180 MineState.ARMED)).2 =
      [Event.minePucker] ∧
    (run (List.replicate 120 quietInput)
        (mkMineWorld 180 MineState.ARMED)).1.mines =
      [mineAt 60 MineState.ARMED] ∧
    MineState.ARMED ≠ MineState.PUCKER := by
  refine ⟨rfl, ?_, ?_, by decide⟩
  · rw [run_mine_120]
  · rw [run_mine_120]
    rfl

/-- C7 (amended): for a mine dropped with timer 180 over the 60-frame pucker
window, in an otherwise empty PLAYING world with the ship far away: after
120 quiet ticks (countdown 60) the pucker cue has fired exactly once but the
state is still ARMED; the state is PUCKER from the following tick (countdown
59, tick 121) through countdown 1 (tick 179); on tick 180 (countdown 0) the
mine enters DETONATING during the tick, the large-explosion cue fires, and
the mine is purged from the collection within that same tick — so it is
absent from every later tick.  In general the state is PUCKER after any tick
whose decremented countdown lies strictly inside the window. -/
theorem c7_mine_pucker_detonation_timeline :
    (run (List.replicate 120 quietInput) (mkMineWorld 180 MineState.ARMED) =
      (mkMineWorld 60 MineState.ARMED, [Event.minePucker])) ∧
    (run (List.replicate 121 quietInput) (mkMineWorld 180 MineState.ARMED) =
      (mkMineWorld 59 MineState.PUCKER, [Event.minePucker])) ∧
    (run (List.replicate 179 quietInput) (mkMineWorld 180 MineState.ARMED) =
      (mkMineWorld 1 MineState.PUCKER, [Event.minePucker])) ∧
    (run (List.replicate 180 quietInput) (mkMineWorld 180 MineState.ARMED) =
      (clearedMineWorld, [Event.minePucker, Event.explosionLarge])) ∧
    ((stepMine (mineAt 1 MineState.PUCKER) mineShip [] anyRng).1.state =
      MineState.DETONATING) ∧
    (∀ (m : Mine) (s : Ship) (l : List Asteroid) (g : Rng),
      (0 : ℤ) < m.timer - 1 → m.timer - 1 < MINE_PUCKER_DURATION →
      (stepMine m s l g).1.state = MineState.PUCKER) ∧
    clearedMineWorld.mines = [] := by
  refine ⟨run_mine_120, run_mine_121, run_mine_179, run_mine_180,
    stepMine_detonates _ _ _ _ (by norm_num [mineAt]), ?_, rfl⟩
  intro m s l g h1 h2
  simp only [stepMine, apply_ite Prod.fst]
  rw [if_pos ⟨h1, h2⟩]

end Quantum


